import Mathlib

/-!
Verification development for the procedural MIDI generation engine of the
infinite-radio repository.  The music-theory primitives are translated from
`src/shared/types.d.ts` (the `music-theory` module) and the segment generator
from `src/server/src/generator.ts`.  JavaScript semantics that matter for the
properties below are modelled explicitly:

* array indexing out of range yields `undefined`, modelled as `Option`;
* `%` on numbers is the JS remainder (sign of the dividend), modelled by
  `Int.tmod`;
* `Array.prototype.indexOf` returns `-1` when the element is missing;
* `Math.random()` is modelled as an explicit stream of rationals consumed in
  program order;
* calling a method on `undefined` (e.g. `undefined.match` inside `noteToMidi`)
  throws a `TypeError`, modelled with `Except`;
* `Math.sin` is idealised as `Real.sin`, so velocities live in `ℝ`.
-/

namespace InfiniteRadio

/-- JS remainder `a % n` for an integer dividend and natural divisor:
truncated division, so the result carries the sign of `a`. -/
def jsMod (a : ℤ) (n : ℕ) : ℤ := a.tmod n

/-- JS array indexing `l[i]` with an integer index: `undefined` (here `none`)
when the index is negative or out of range. -/
def jsArrIdx {α : Type} (l : List α) (i : ℤ) : Option α :=
  if 0 ≤ i then l.get? i.toNat else none

/-- JS `Array.prototype.indexOf`: the index of the first occurrence, or `-1`. -/
def jsIndexOf (l : List String) (x : String) : ℤ :=
  match l.findIdx? (fun y => y = x) with
  | some n => (n : ℤ)
  | none => -1

/-- Value of a decimal digit character. -/
def digitVal (c : Char) : ℕ := c.toNat - 48

/-- `parseInt` restricted to a nonempty all-digit character list (the only way
it is reached through the `^([A-G]#?)(\d+)$` regular expression). -/
def parseDigits (cs : List Char) : ℕ :=
  cs.foldl (fun a c => a * 10 + digitVal c) 0

namespace MusicTheory

/-- `NOTES` from `music-theory`: the twelve pitch classes in sharp form. -/
def NOTES : List String :=
  ["C", "C#", "D", "D#", "E", "F"] ++
    ["F#", "G", "G#", "A", "A#", "B"]

/-- `NOTES[i]` as used in string concatenations: JS turns `undefined` into the
text `undefined` when concatenated with a number. -/
def jsNoteAt (i : ℤ) : String := (jsArrIdx NOTES i).getD "undefined"

/-- `SCALES`: scale patterns (semitone intervals from root). -/
def SCALES : List (String × List ℤ) :=
  [ ("major", [0, 2, 4, 5, 7, 9, 11])
  , ("minor", [0, 2, 3, 5, 7, 8, 10])
  , ("dorian", [0, 2, 3, 5, 7, 9, 10])
  , ("mixolydian", [0, 2, 4, 5, 7, 9, 10])
  , ("pentatonic", [0, 2, 4, 7, 9])
  , ("minorPentatonic", [0, 3, 5, 7, 10])
  , ("blues", [0, 3, 5, 6, 7, 10])
  , ("chromatic", [0, 1, 2, 3, 4, 5, 6, 7, 8, 9, 10, 11]) ]

/-- The `SCALES.major` entry, the fallback of every `SCALES[x] || SCALES.major`. -/
def SCALES_major : List ℤ := [0, 2, 4, 5, 7, 9, 11]

/-- `CHORDS`: chord patterns (intervals from root). -/
def CHORDS : List (String × List ℤ) :=
  [ ("major", [0, 4, 7])
  , ("minor", [0, 3, 7])
  , ("dim", [0, 3, 6])
  , ("aug", [0, 4, 8])
  , ("maj7", [0, 4, 7, 11])
  , ("min7", [0, 3, 7, 10])
  , ("dom7", [0, 4, 7, 10])
  , ("sus2", [0, 2, 7])
  , ("sus4", [0, 5, 7]) ]

/-- The `CHORDS.major` entry, the fallback of `CHORDS[chordType] || CHORDS.major`. -/
def CHORDS_major : List ℤ := [0, 4, 7]

/-- `PROGRESSIONS`: chord progressions by style (scale degree, chord type). -/
def PROGRESSIONS : List (String × List (ℤ × String)) :=
  [ ("pop", [(0, "major"), (5, "major"), (3, "minor"), (4, "major")])
  , ("jazz", [(1, "min7"), (4, "dom7"), (0, "maj7"), (0, "maj7")])
  , ("blues",
      [ (0, "dom7"), (0, "dom7"), (0, "dom7"), (0, "dom7")
      , (3, "dom7"), (3, "dom7"), (0, "dom7"), (0, "dom7")
      , (4, "dom7"), (3, "dom7"), (0, "dom7"), (4, "dom7") ])
  , ("ambient", [(0, "maj7"), (2, "minor"), (4, "major"), (3, "minor")])
  , ("lofi", [(0, "maj7"), (3, "min7"), (4, "dom7"), (0, "maj7")])
  , ("classical", [(0, "major"), (3, "major"), (4, "major"), (0, "major")])
  , ("electronic", [(0, "minor"), (5, "minor"), (3, "major"), (4, "major")]) ]

/-- The `PROGRESSIONS.pop` entry, the fallback of `getProgression`. -/
def PROGRESSIONS_pop : List (ℤ × String) :=
  [(0, "major"), (5, "major"), (3, "minor"), (4, "major")]

/-- `noteToMidi`: parse `^([A-G]#?)(\d+)$`; on a match return
`NOTES.indexOf(name) + (parseInt(octave) + 1) * 12`, else default to 60
(middle C).  `indexOf` yields `-1` for the sharp names absent from `NOTES`
(`E#`, `B#`), exactly as in JS. -/
def noteToMidi (note : String) : ℤ :=
  match note.data with
  | c :: rest =>
    if 65 ≤ c.toNat ∧ c.toNat ≤ 71 then
      let parts :=
        match rest with
        | d :: ds => if d = '#' then (String.mk [c, d], ds) else (String.mk [c], rest)
        | [] => (String.mk [c], [])
      if parts.2 ≠ [] ∧ parts.2.all (fun d => d.isDigit) then
        jsIndexOf NOTES parts.1 + ((parseDigits parts.2 : ℤ) + 1) * 12
      else 60
    else 60
  | [] => 60

/-- `midiToNote`: `NOTES[midi % 12] + (Math.floor(midi / 12) - 1)`. -/
def midiToNote (midi : ℤ) : String :=
  jsNoteAt (jsMod midi 12) ++ toString (midi.fdiv 12 - 1)

/-- Shared `getScale` from `music-theory`: pattern lookup with fallback to
major, each note built from the rotated `NOTES` table with octave carry. -/
def getScale (root scaleType : String) (octave : ℤ) : List String :=
  let rootIndex := jsIndexOf NOTES root
  let pattern := (SCALES.lookup scaleType).getD SCALES_major
  pattern.map (fun interval =>
    jsNoteAt (jsMod (rootIndex + interval) 12) ++
      toString (octave + (rootIndex + interval).fdiv 12))

/-- `getChord`: chord notes for a root and chord type. -/
def getChord (root chordType : String) (octave : ℤ) : List String :=
  let rootIndex := jsIndexOf NOTES root
  let pattern := (CHORDS.lookup chordType).getD CHORDS_major
  pattern.map (fun interval =>
    jsNoteAt (jsMod (rootIndex + interval) 12) ++
      toString (octave + (rootIndex + interval).fdiv 12))

/-- `getChordFromDegree`: resolve a scale degree to a chord root, then build
the chord.  When `scale[degree % scale.length]` is `undefined` the JS
arithmetic collapses to `NOTES[NaN]`, i.e. the `undefined` root. -/
def getChordFromDegree (root scaleType : String) (degree : ℤ)
    (chordType : String) (octave : ℤ) : List String :=
  let scale := (SCALES.lookup scaleType).getD SCALES_major
  let rootIndex := jsIndexOf NOTES root
  let chordRoot :=
    match jsArrIdx scale (jsMod degree scale.length) with
    | some interval => jsNoteAt (jsMod (rootIndex + interval) 12)
    | none => "undefined"
  getChord chordRoot chordType octave

/-- `getProgression`: progression lookup with fallback to `PROGRESSIONS.pop`. -/
def getProgression (style : String) : List (ℤ × String) :=
  (PROGRESSIONS.lookup style).getD PROGRESSIONS_pop

/-- The supported pitch-name grammar exactly as the specification states it:
one letter A..G, an optional sharp, then a nonempty octave digit string.
This definition follows the SPEC wording (for comparison with the code); the
code-side parse lives inside `noteToMidi`. -/
def specPitchGrammar (s : String) : Bool :=
  match s.data with
  | c :: rest =>
    let body := if rest.head? = some '#' then rest.tail else rest
    decide (65 <= c.toNat && c.toNat <= 71) && !body.isEmpty &&
      body.all (fun d => d.isDigit)
  | [] => false

/-- `StyleParams` from `music-theory`. -/
structure StyleParams where
  tempo : ℚ × ℚ
  noteDensity : ℚ
  velocityRange : ℚ × ℚ
  octaveRange : ℤ × ℤ
  preferredScales : List String
  rhythmPatterns : List String
  useSustain : Bool

/-- The `ambient` entry of `STYLE_PARAMS` (also the universal fallback). -/
def ambientParams : StyleParams :=
  { tempo := (60, 80), noteDensity := 3/10, velocityRange := (40, 80)
  , octaveRange := (3, 5), preferredScales := ["major", "dorian"]
  , rhythmPatterns := ["sparse", "straight"], useSustain := true }

/-- `STYLE_PARAMS`: style-specific generation parameters. -/
def STYLE_PARAMS : List (String × StyleParams) :=
  [ ("ambient", ambientParams)
  , ("lofi",
      { tempo := (70, 90), noteDensity := 1/2, velocityRange := (50, 90)
      , octaveRange := (3, 5), preferredScales := ["pentatonic", "dorian"]
      , rhythmPatterns := ["syncopated", "offbeat"], useSustain := true })
  , ("electronic",
      { tempo := (120, 140), noteDensity := 7/10, velocityRange := (70, 110)
      , octaveRange := (2, 6), preferredScales := ["minor", "minorPentatonic"]
      , rhythmPatterns := ["driving", "syncopated"], useSustain := false })
  , ("classical",
      { tempo := (80, 120), noteDensity := 3/5, velocityRange := (50, 100)
      , octaveRange := (3, 6), preferredScales := ["major", "minor"]
      , rhythmPatterns := ["straight", "triplet"], useSustain := true })
  , ("jazz",
      { tempo := (100, 140), noteDensity := 3/5, velocityRange := (60, 100)
      , octaveRange := (3, 5), preferredScales := ["dorian", "mixolydian"]
      , rhythmPatterns := ["syncopated", "triplet"], useSustain := true }) ]

end MusicTheory

/-! ## The generation monad

`Math.random()` is the only effect of the generator; a run consumes an
explicit stream of rationals in program order.  A JS `TypeError` (method call
on `undefined`) aborts the computation. -/

/-- The ambient source of `Math.random()` values. -/
def RandStream : Type := ℕ → ℚ

/-- A constant random stream (every draw yields `q`). -/
def constStream (q : ℚ) : RandStream := fun _ => q

/-- The generator monad: state-threaded random stream with JS exceptions. -/
def M (α : Type) : Type := RandStream → Except String (α × RandStream)

instance : Monad M where
  pure a := fun s => Except.ok (a, s)
  bind m f := fun s =>
    match m s with
    | Except.ok (a, s1) => f a s1
    | Except.error e => Except.error e

/-- One `Math.random()` draw. -/
def rand : M ℚ := fun s => Except.ok (s 0, fun n => s (n + 1))

/-- A JS `TypeError` (e.g. calling `.match` or `.replace` on `undefined`). -/
def jsThrow {α : Type} (msg : String) : M α := fun _ => Except.error msg

/-- Dereference a possibly-`undefined` value in a position where JS would
immediately call a method on it (throwing a `TypeError` on `undefined`). -/
def fromJs {α : Type} : Option α → M α
  | some a => pure a
  | none => jsThrow "TypeError"

/-- An `if` in statement position of monadic code.  Definitionally the plain
`ite`; naming it keeps the do-notation desugaring free of duplicated join
points, which the correctness proofs walk. -/
def mIte {α : Type} (c : Prop) [Decidable c] (t e : M α) : M α :=
  if c then t else e

/-- Partial-correctness predicate: every successful run of `m` returns a value
satisfying `Q`. -/
def MOk {α : Type} (m : M α) (Q : α → Prop) : Prop :=
  ∀ s a s2, m s = Except.ok (a, s2) → Q a

/-- A random stream whose draws all lie in `[0, 1)`, the contract of
`Math.random()`. -/
def goodStream (s : RandStream) : Prop := ∀ n, 0 ≤ s n ∧ s n < 1

/-- Total-correctness predicate over well-behaved random streams: from any
good stream, `m` succeeds with a value satisfying `Q` and leaves a good
stream. -/
def MTot {α : Type} (m : M α) (Q : α → Prop) : Prop :=
  ∀ s, goodStream s →
    ∃ a s2, m s = Except.ok (a, s2) ∧ Q a ∧ goodStream s2


namespace Generator

open MusicTheory

/-- `Math.floor` on a JS number. -/
noncomputable def mathFloor (x : ℝ) : ℝ := ((⌊x⌋ : ℤ) : ℝ)

/-- `humanizeTiming`: timing jitter, clamped to never go negative. -/
def humanizeTiming (tick : ℤ) (amount : ℚ) : M ℤ := do
  let r ← rand
  pure (max 0 (tick + ⌊(r - 1/2) * amount * 2⌋))

/-- `humanizeVelocity`: velocity jitter, clamped to `[1, 127]`. -/
noncomputable def humanizeVelocity (velocity : ℝ) (amount : ℚ) : M ℝ := do
  let r ← rand
  pure (min 127 (max 1 (velocity + ((⌊(r - 1/2) * amount * 2⌋ : ℤ) : ℝ))))

/-- The body of `generateMotif`'s for-loop: push the current degree, then take
a random step (70% a step of ±1, else a leap of ±2), clamping into
`[0, scaleLength - 1]`. -/
def generateMotifSteps (scaleLength : ℕ) : ℕ → ℤ → List ℤ → M (List ℤ)
  | 0, _, acc => pure acc
  | n + 1, current, acc => do
    let acc := acc ++ [current]
    let r ← rand
    if r < 7/10 then do
      let r2 ← rand
      let step : ℤ := if r2 < 1/2 then 1 else -1
      generateMotifSteps scaleLength n
        (max 0 (min ((scaleLength : ℤ) - 1) (current + step))) acc
    else do
      let r2 ← rand
      let step : ℤ := if r2 < 1/2 then 2 else -2
      generateMotifSteps scaleLength n
        (max 0 (min ((scaleLength : ℤ) - 1) (current + step))) acc

/-- `generateMotif`: 4–7 scale degrees starting on the 3rd–5th degree. -/
def generateMotif (scaleLength : ℕ) : M (List ℤ) := do
  let r ← rand
  let motifLength := (4 + ⌊r * 4⌋).toNat
  let r2 ← rand
  let current : ℤ := ⌊r2 * 3⌋ + 2
  generateMotifSteps scaleLength motifLength current []

/-- `varyMotif`: identity / sequence up / retrograde / inversion by
`variation % 4`. -/
def varyMotif (motif : List ℤ) (variation : ℕ) (scaleLength : ℕ) : List ℤ :=
  match variation % 4 with
  | 0 => motif
  | 1 => motif.map (fun n => min ((scaleLength : ℤ) - 1) (n + 2))
  | 2 => motif.reverse
  | 3 => motif.map (fun n => max 0 ((scaleLength : ℤ) - 1 - n))
  | _ => motif

/-- A drum grid (16 sixteenth-note slots per voice). -/
structure DrumPattern where
  kick : List ℕ
  snare : List ℕ
  hihat : List ℕ
  ride : Option (List ℕ)

/-- The `lofi` drum grid, also the fallback of `DRUM_PATTERNS[style]`. -/
def DRUM_PATTERNS_lofi : DrumPattern :=
  { kick := [1,0,0,0, 0,0,0,0, 1,0,0,0, 0,0,0,0]
  , snare := [0,0,0,0, 1,0,0,0, 0,0,0,0, 1,0,0,0]
  , hihat := [1,0,1,0, 1,0,1,0, 1,0,1,0, 1,0,1,0]
  , ride := none }

/-- `DRUM_PATTERNS`: drum grids per style. -/
def DRUM_PATTERNS : List (String × DrumPattern) :=
  [ ("ambient",
      { kick := [1,0,0,0, 0,0,0,0, 0,0,0,0, 0,0,0,0]
      , snare := [0,0,0,0, 0,0,0,0, 0,0,0,0, 0,0,0,0]
      , hihat := [0,0,0,0, 0,0,0,0, 0,0,0,0, 0,0,0,0]
      , ride := none })
  , ("lofi", DRUM_PATTERNS_lofi)
  , ("electronic",
      { kick := [1,0,0,0, 1,0,0,0, 1,0,0,0, 1,0,0,0]
      , snare := [0,0,0,0, 1,0,0,0, 0,0,0,0, 1,0,0,0]
      , hihat := [1,1,1,1, 1,1,1,1, 1,1,1,1, 1,1,1,1]
      , ride := none })
  , ("classical",
      { kick := [0,0,0,0, 0,0,0,0, 0,0,0,0, 0,0,0,0]
      , snare := [0,0,0,0, 0,0,0,0, 0,0,0,0, 0,0,0,0]
      , hihat := [0,0,0,0, 0,0,0,0, 0,0,0,0, 0,0,0,0]
      , ride := none })
  , ("jazz",
      { kick := [1,0,0,0, 0,0,1,0, 0,0,0,0, 0,0,1,0]
      , snare := [0,0,0,0, 0,0,0,0, 0,0,0,0, 0,0,0,0]
      , hihat := [0,0,0,0, 0,0,0,0, 0,0,0,0, 0,0,0,0]
      , ride := some [1,0,1,1, 0,1,1,0, 1,1,0,1, 1,0,1,0] }) ]

/-- `ARPEGGIO_PATTERNS.up`. -/
def ARPEGGIO_PATTERNS_up : List (List ℕ) := [[0], [1], [2], [3]]

/-- `ARPEGGIO_PATTERNS.down` (unused by the generator). -/
def ARPEGGIO_PATTERNS_down : List (List ℕ) := [[3], [2], [1], [0]]

/-- `ARPEGGIO_PATTERNS.upDown`. -/
def ARPEGGIO_PATTERNS_upDown : List (List ℕ) := [[0], [1], [2], [3], [2], [1]]

/-- `ARPEGGIO_PATTERNS.broken` (unused by the generator). -/
def ARPEGGIO_PATTERNS_broken : List (List ℕ) := [[0, 2], [1, 3]]

/-- `ARPEGGIO_PATTERNS.spread` (unused by the generator). -/
def ARPEGGIO_PATTERNS_spread : List (List ℕ) := [[0], [2], [1], [3]]

/-- The five song sections. -/
inductive SongSection where
  | intro
  | verse
  | build
  | climax
  | outro
deriving DecidableEq, Repr

/-- Per-section arrangement configuration. -/
structure SectionConfig where
  melody : Bool
  chords : Bool
  bass : Bool
  pad : Bool
  drums : String
  density : ℚ
  velocityMod : ℚ

/-- `SECTION_CONFIGS`. -/
def SECTION_CONFIGS : SongSection → SectionConfig
  | .intro =>
    { melody := false, chords := true, bass := true, pad := true
    , drums := "none", density := 3/10, velocityMod := -15 }
  | .verse =>
    { melody := true, chords := true, bass := true, pad := true
    , drums := "light", density := 3/5, velocityMod := -5 }
  | .build =>
    { melody := true, chords := true, bass := true, pad := true
    , drums := "building", density := 4/5, velocityMod := 5 }
  | .climax =>
    { melody := true, chords := true, bass := true, pad := true
    , drums := "full", density := 1, velocityMod := 15 }
  | .outro =>
    { melody := true, chords := false, bass := true, pad := true
    , drums := "minimal", density := 2/5, velocityMod := -10 }

/-- `getSongSection`: map a bar to a song section; extension segments
(`totalBarsOffset > 0`) branch on the extension direction, the first segment
uses the fixed intro/verse/build/climax/outro arc. -/
def getSongSection (barNumber totalBars totalBarsOffset : ℤ)
    (extensionDirection : String) : SongSection :=
  if totalBarsOffset > 0 then
    let localProgress : ℚ := (barNumber : ℚ) / (totalBars : ℚ)
    if extensionDirection = "build" then
      if localProgress < 3/10 then .verse
      else if localProgress < 7/10 then .build
      else .climax
    else if extensionDirection = "peak" then
      if localProgress < 1/10 then .build
      else if localProgress < 17/20 then .climax
      else .climax
    else if extensionDirection = "wind_down" then
      if localProgress < 1/5 then .verse
      else if localProgress < 3/5 then .verse
      else .outro
    else if extensionDirection = "contrast" then
      if localProgress < 1/4 then .intro
      else if localProgress < 1/2 then .verse
      else if localProgress < 3/4 then .build
      else .climax
    else
      -- the `continue` case is also the switch default
      let overallProgress : ℚ :=
        ((totalBarsOffset + barNumber : ℤ) : ℚ) /
          ((totalBarsOffset + totalBars + 32 : ℤ) : ℚ)
      if overallProgress < 1/5 then .verse
      else if overallProgress < 2/5 then .build
      else if overallProgress < 7/10 then .climax
      else if overallProgress < 9/10 then .build
      else .outro
  else
    let progress : ℚ := (barNumber : ℚ) / (totalBars : ℚ)
    if progress < 1/10 then .intro
    else if progress < 7/20 then .verse
    else if progress < 3/5 then .build
    else if progress < 17/20 then .climax
    else .outro

/-- A melodic phrase (question or answer with a resolution target). -/
structure Phrase where
  type : String
  bars : ℕ
  targetResolution : ℤ

/-- `getPhraseType`: 2-bar question (target 5th or 2nd) then 2-bar answer
(target root or 3rd), chosen randomly. -/
def getPhraseType (barNumber : ℕ) : M Phrase := do
  if barNumber % 4 < 2 then
    let r ← rand
    pure { type := "question", bars := 2
         , targetResolution := if r > 1/2 then 4 else 1 }
  else
    let r ← rand
    pure { type := "answer", bars := 2
         , targetResolution := if r > 3/5 then 0 else 2 }

/-- The dynamics state machine value. -/
structure Dynamics where
  level : String
  direction : String
  velocityTrend : ℚ

/-- The `levelMap` of `getBaseVelocity`. -/
def LEVEL_MAP : List (String × ℚ) := [("soft", 55), ("medium", 72), ("loud", 88)]

/-- `getBaseVelocity`: dynamics-level base plus trend, 4-bar triangular
phrase dynamics and the whole-segment sinusoidal arc, clamped to `[40, 100]`. -/
noncomputable def getBaseVelocity (dynamics : Dynamics) (currentBar : ℕ)
    (totalBars : ℤ) : ℝ :=
  let base : ℚ := (LEVEL_MAP.lookup dynamics.level).getD 72
  let phrasePos := currentBar % 4
  let phraseDynamic : ℚ :=
    if phrasePos < 2 then (phrasePos : ℚ) * 3 else (3 - (phrasePos : ℚ)) * 3
  let progress : ℚ := (currentBar : ℚ) / (totalBars : ℚ)
  let arcDynamic : ℝ := Real.sin ((progress : ℝ) * Real.pi) * 8
  min 100 (max 40
    (((base + dynamics.velocityTrend * 10 + phraseDynamic : ℚ) : ℝ) + arcDynamic))

/-- The per-bar base velocity handed to the track generators
(`getBaseVelocity(dynamics, bar, bars) + sectionConfig.velocityMod`,
line 358 of the generator). -/
noncomputable def barBaseVelocity (dynamics : Dynamics) (bar : ℕ)
    (totalBars : ℤ) (sectionConfig : SectionConfig) : ℝ :=
  getBaseVelocity dynamics bar totalBars + (sectionConfig.velocityMod : ℝ)

/-- The unclamped sum inside `getBaseVelocity` (level base + trend·10 +
phrase triangle + sinusoidal arc). -/
noncomputable def rawBaseVelocity (dynamics : Dynamics) (currentBar : ℕ)
    (totalBars : ℤ) : ℝ :=
  let base : ℚ := (LEVEL_MAP.lookup dynamics.level).getD 72
  let phrasePos := currentBar % 4
  let phraseDynamic : ℚ :=
    if phrasePos < 2 then (phrasePos : ℚ) * 3 else (3 - (phrasePos : ℚ)) * 3
  let progress : ℚ := (currentBar : ℚ) / (totalBars : ℚ)
  let arcDynamic : ℝ := Real.sin ((progress : ℝ) * Real.pi) * 8
  ((base + dynamics.velocityTrend * 10 + phraseDynamic : ℚ) : ℝ) + arcDynamic

/-- The per-bar base velocity as the SPEC words it: the section modifier is
added BEFORE the clamp ("the total clamped into [40,100]").  Written for
comparison against the code-side `barBaseVelocity`. -/
noncomputable def specBaseVelocity (dynamics : Dynamics) (bar : ℕ)
    (totalBars : ℤ) (cfg : SectionConfig) : ℝ :=
  min 100 (max 40 (rawBaseVelocity dynamics bar totalBars + (cfg.velocityMod : ℝ)))

/-- The `rates` table of `getProgressionRate`. -/
def PROGRESSION_RATES : List (String × ℕ) :=
  [("ambient", 4), ("lofi", 2), ("electronic", 2), ("classical", 1), ("jazz", 1)]

/-- `getProgressionRate`: bars per chord, defaulting to 2. -/
def getProgressionRate (style : String) : ℕ :=
  (PROGRESSION_RATES.lookup style).getD 2

/-- `evolveDynamics`: position-fraction-driven trend update, global clamp to
`[-1, 1.2]`, then the level re-derived from the trend. -/
def evolveDynamics (dynamics : Dynamics) (currentBar : ℕ) (totalBars : ℤ) :
    M Dynamics := do
  let progress : ℚ := (currentBar : ℚ) / (totalBars : ℚ)
  let upd ←
    mIte (progress < 1/5)
      (pure { dynamics with
        direction := "building",
        velocityTrend := min 1 (dynamics.velocityTrend + 3/20) })
      (mIte (progress < 7/10)
        (do
          let r ← rand
          pure { dynamics with
            direction := "stable",
            velocityTrend := dynamics.velocityTrend + (r - 1/2) * (1/10) })
        (mIte (progress < 9/10)
          (pure { dynamics with
            direction := "building",
            velocityTrend := min (6/5) (dynamics.velocityTrend + 1/10) })
          (pure { dynamics with
            direction := "fading",
            velocityTrend := max (-3/10) (dynamics.velocityTrend - 1/10) })))
  let clamped := max (-1) (min (6/5) upd.velocityTrend)
  let level :=
    if clamped > 3/5 then "loud"
    else if clamped < -1/5 then "soft"
    else "medium"
  pure { upd with velocityTrend := clamped, level := level }

/-- General-MIDI instrument numbers per role. -/
structure Instruments where
  melody : ℕ
  chords : ℕ
  bass : ℕ
  pad : ℕ

/-- The ambient instrument assignment, also the fallback of
`getInstrumentsForStyle`. -/
def ambientInstruments : Instruments :=
  { melody := 89, chords := 52, bass := 39, pad := 92 }

/-- The instrument table of `getInstrumentsForStyle`. -/
def INSTRUMENT_TABLE : List (String × Instruments) :=
  [ ("ambient", ambientInstruments)
  , ("lofi", { melody := 5, chords := 1, bass := 33, pad := 89 })
  , ("electronic", { melody := 81, chords := 63, bass := 38, pad := 95 })
  , ("classical", { melody := 41, chords := 49, bass := 43, pad := 49 })
  , ("jazz", { melody := 66, chords := 1, bass := 33, pad := 52 }) ]

/-- `getInstrumentsForStyle`: lookup with fallback to the ambient entry. -/
def getInstrumentsForStyle (style : String) : Instruments :=
  (INSTRUMENT_TABLE.lookup style).getD ambientInstruments

/-- Local `getScale` of the generator module (shadows the shared one): only
five patterns, unknown mode falls back to major. -/
def SCALE_PATTERNS : List (String × List ℤ) :=
  [ ("major", [0, 2, 4, 5, 7, 9, 11])
  , ("minor", [0, 2, 3, 5, 7, 8, 10])
  , ("dorian", [0, 2, 3, 5, 7, 9, 10])
  , ("mixolydian", [0, 2, 4, 5, 7, 9, 10])
  , ("pentatonic", [0, 2, 4, 7, 9]) ]

/-- The local `patterns.major` fallback. -/
def SCALE_PATTERNS_major : List ℤ := [0, 2, 4, 5, 7, 9, 11]

/-- The generator's local `getScale`. -/
def getScale (root mode : String) (octave : ℤ) : List String :=
  let rootIdx := jsIndexOf NOTES root
  let pattern := (SCALE_PATTERNS.lookup mode).getD SCALE_PATTERNS_major
  pattern.map (fun interval =>
    jsNoteAt (jsMod (rootIdx + interval) 12) ++
      toString (octave + (rootIdx + interval).fdiv 12))

/-- `String.replace(/\d+$/, '')`: strip the trailing run of digits. -/
def stripTrailingDigits (s : String) : String :=
  String.mk ((s.data.reverse.dropWhile (fun c => c.isDigit)).reverse)

/-- An abstract note event as handed to the MIDI writer. -/
structure NoteEvent where
  pitch : List String
  duration : String
  velocity : ℝ
  startTick : ℤ
  channel : Option ℕ

/-- The `intensityMults` table of `generateDrums`.  The source performs a
plain record lookup; `generateDrums` is only ever invoked with one of the four
keys, so the default is unreachable. -/
def drumIntensityMult (intensity : String) : ℚ :=
  (List.lookup intensity
    [("minimal", 3/5), ("light", 4/5), ("full", 1), ("building", 23/20)]).getD 0

/-- `generateDrums`: one bar of the style's drum grid with intensity and
density multipliers, optional ghost notes, open hi-hats and an end-of-section
fill replacing slots 12–15. -/
noncomputable def generateDrums (barNumber : ℕ) (style : String)
    (baseVelocity : ℝ) (dynamics : Dynamics) (intensity : String)
    (addFill : Bool) : M (List NoteEvent) := do
  let pattern := (DRUM_PATTERNS.lookup style).getD DRUM_PATTERNS_lofi
  let ticksPerSixteenth : ℤ := 32
  let intensityMult : ℚ := drumIntensityMult intensity *
    (if dynamics.direction = "building" then 11/10
     else if dynamics.direction = "fading" then 9/10 else 1)
  let densityMult : ℚ :=
    if intensity = "minimal" then 2/5 else if intensity = "light" then 7/10 else 1
  (List.range 16).foldlM (fun evs (i : Nat) => do
    let tick : ℤ := (barNumber : ℤ) * 512 + (i : ℤ) * ticksPerSixteenth
    if addFill ∧ i ≥ 12 then do
      -- snare roll fill
      let v ← humanizeVelocity
        (mathFloor (baseVelocity *
          ((intensityMult * ((8/10 : ℚ) + ((i : ℚ) - 12) * (1/10)) : ℚ) : ℝ))) 5
      let t ← humanizeTiming tick 2
      let evs := evs ++ [{ pitch := ["D2"], duration := "16", velocity := v
                         , startTick := t, channel := some 10 }]
      -- tom fills
      if i = 13 ∨ i = 15 then do
        let v2 ← humanizeVelocity
          (mathFloor (baseVelocity * ((intensityMult * (17/20) : ℚ) : ℝ))) 5
        let t2 ← humanizeTiming tick 2
        pure (evs ++ [{ pitch := ["G2"], duration := "16", velocity := v2
                      , startTick := t2, channel := some 10 }])
      else
        pure evs
      -- normal pattern is skipped during the fill (`continue`)
    else do
      -- kick drum
      let evs ←
        mIte (pattern.kick.getD i 0 ≠ 0 ∧ (intensity ≠ "minimal" ∨ i = 0))
          (do
            let v ← humanizeVelocity
              (mathFloor (baseVelocity * ((intensityMult : ℚ) : ℝ))) 5
            let t ← humanizeTiming tick 2
            pure (evs ++ [{ pitch := ["C2"], duration := "16", velocity := v
                          , startTick := t, channel := some 10 }]))
          (pure evs)
      -- snare drum (gated on density, short-circuit keeps the draw lazy)
      let evs ←
        mIte (pattern.snare.getD i 0 ≠ 0)
          (do
            let r ← rand
            if r < densityMult then do
              let v ← humanizeVelocity
                (mathFloor (baseVelocity * (((9/10) * intensityMult : ℚ) : ℝ))) 6
              let t ← humanizeTiming tick 3
              pure (evs ++ [{ pitch := ["D2"], duration := "16", velocity := v
                            , startTick := t, channel := some 10 }])
            else pure evs)
          (pure evs)
      -- ghost notes on lofi and jazz
      let evs ←
        mIte ((style = "lofi" ∨ style = "jazz") ∧ intensity ≠ "minimal" ∧
            (i = 6 ∨ i = 10))
          (do
            let r ← rand
            if r > 1/2 then do
              let v ← humanizeVelocity
                (mathFloor (baseVelocity * ((7/20 : ℚ) : ℝ))) 8
              let t ← humanizeTiming tick 5
              pure (evs ++ [{ pitch := ["D2"], duration := "16", velocity := v
                            , startTick := t, channel := some 10 }])
            else pure evs)
          (pure evs)
      -- hi-hat, open on builds
      let evs ←
        mIte (pattern.hihat.getD i 0 ≠ 0)
          (do
            let r ← rand
            if r < densityMult then do
              let isOffbeat := i % 2 = 1
              let useOpenHihat := intensity = "building" ∧ i % 4 = 2
              let v ← humanizeVelocity
                (mathFloor ((baseVelocity - 20) *
                  (((if isOffbeat then (7/10 : ℚ) else 1) * intensityMult : ℚ) : ℝ))) 10
              let t ← humanizeTiming tick 4
              pure (evs ++ [{ pitch := [if useOpenHihat then "A#2" else "F#2"]
                            , duration := "16", velocity := v
                            , startTick := t, channel := some 10 }])
            else pure evs)
          (pure evs)
      -- ride cymbal for jazz
      match pattern.ride with
      | some ride =>
        if ride.getD i 0 ≠ 0 then do
          let r ← rand
          if r < densityMult then do
            let v ← humanizeVelocity
              (mathFloor (baseVelocity * (((3/5) * intensityMult : ℚ) : ℝ))) 8
            let t ← humanizeTiming tick 5
            pure (evs ++ [{ pitch := ["D#3"], duration := "16", velocity := v
                          , startTick := t, channel := some 10 }])
          else pure evs
        else pure evs
      | none => pure evs)
    []

/-- `generatePad`: one whole-bar chord at 40% of the base velocity. -/
noncomputable def generatePad (chordNotes : List String) (barNumber : ℕ)
    (baseVelocity : ℝ) : M (List NoteEvent) := do
  let v ← humanizeVelocity (mathFloor (baseVelocity * ((2/5 : ℚ) : ℝ))) 5
  pure [{ pitch := chordNotes, duration := "1", velocity := v
        , startTick := (barNumber : ℤ) * 512, channel := none }]

/-- `generateChords`: style-specific chord voicings (slow/fast arpeggios,
syncopated hits, or block chords). -/
noncomputable def generateChords (chordNotes : List String) (barNumber : ℕ)
    (baseVelocity : ℝ) (style : String) (styleParams : StyleParams)
    (sect : SongSection) : M (List NoteEvent) := do
  let tick : ℤ := (barNumber : ℤ) * 512
  let sectionSparsity : ℚ :=
    if sect = .intro then 1/2
    else if sect = .outro then 3/5
    else if sect = .climax then 6/5 else 1
  if style = "ambient" then
    -- slow arpeggios, even slower in the intro
    let arpPattern :=
      if sect = .climax then ARPEGGIO_PATTERNS_upDown else ARPEGGIO_PATTERNS_up
    let noteDuration : ℤ := if sect = .intro then 256 else 128
    arpPattern.enum.foldlM (fun evs p => do
      let notes := p.2.map (fun idx =>
        (jsArrIdx chordNotes (jsMod (idx : ℤ) chordNotes.length)).getD "undefined")
      let v ← humanizeVelocity
        (mathFloor (baseVelocity * (((3/5) * sectionSparsity : ℚ) : ℝ))) 8
      let t ← humanizeTiming (tick + (p.1 : ℤ) * noteDuration) 10
      pure (evs ++ [{ pitch := notes
                    , duration := if sect = .intro then "2" else "4"
                    , velocity := v, startTick := t, channel := none }])) []
  else if style = "electronic" then
    -- fast arpeggios, 4/8/16 notes per bar by section
    let arpPattern :=
      if sect = .climax then ARPEGGIO_PATTERNS_upDown else ARPEGGIO_PATTERNS_up
    let noteCount : ℕ := if sect = .intro then 4 else if sect = .climax then 16 else 8
    (List.range noteCount).foldlM (fun evs (i : Nat) => do
      -- the arpeggio rows are nonempty singletons, `row[0]`
      let noteIdx : ℤ :=
        (((jsArrIdx arpPattern (jsMod (i : ℤ) arpPattern.length)).getD []).headD 0 : ℕ)
      let note := (jsArrIdx chordNotes (jsMod noteIdx chordNotes.length)).getD "undefined"
      let v ← humanizeVelocity
        (mathFloor (baseVelocity * (((7/10) * sectionSparsity : ℚ) : ℝ))) 10
      -- `512 / noteCount` is exact for 4, 8 and 16
      let t ← humanizeTiming (tick + (i : ℤ) * (512 / (noteCount : ℤ))) 3
      pure (evs ++ [{ pitch := [note], duration := "16", velocity := v
                    , startTick := t, channel := none }])) []
  else if style = "lofi" ∨ style = "jazz" then
    -- syncopated chord hits with swing and probabilistic skip
    let hits : List ℕ :=
      if sect = .intro then [0, 8]
      else if sect = .climax then [0, 2, 4, 6, 8, 10, 12, 14]
      else [0, 3, 6, 10, 14]
    hits.foldlM (fun evs pos => do
      let r ← rand
      if r > (3/10) * (2 - sectionSparsity) then do
        let swingDelay : ℤ := if style = "jazz" ∧ pos % 2 = 1 then 8 else 0
        let v ← humanizeVelocity
          (mathFloor (baseVelocity * (((13/20) * sectionSparsity : ℚ) : ℝ))) 12
        let t ← humanizeTiming (tick + (pos : ℤ) * 32 + swingDelay) 8
        pure (evs ++ [{ pitch := chordNotes, duration := "8", velocity := v
                      , startTick := t, channel := none }])
      else pure evs) []
  else
    -- block chords (classical, default)
    if styleParams.useSustain ∨ sect = .intro ∨ sect = .outro then do
      let v ← humanizeVelocity
        (mathFloor (baseVelocity * (((7/10) * sectionSparsity : ℚ) : ℝ))) 5
      pure [{ pitch := chordNotes, duration := "1", velocity := v
            , startTick := tick, channel := none }]
    else
      let beats : ℕ := if sect = .climax then 4 else if sect = .verse then 4 else 2
      (List.range beats).foldlM (fun evs (beat : Nat) => do
        let v ← humanizeVelocity
          (mathFloor (baseVelocity * (((13/20) * sectionSparsity : ℚ) : ℝ))) 8
        let t ← humanizeTiming (tick + (beat : ℤ) * 128) 5
        pure (evs ++ [{ pitch := chordNotes, duration := "4", velocity := v
                      , startTick := t, channel := none }])) []

/-- `generateBass`: per-style bass lines; intro/outro always collapse to a
single sustained root. -/
noncomputable def generateBass (bassRoot : String) (chordNotes : List String)
    (barNumber : ℕ) (baseVelocity : ℝ) (style : String)
    (progression : List (ℤ × String)) (progressionPos : ℤ)
    (sect : SongSection) : M (List NoteEvent) := do
  let tick : ℤ := (barNumber : ℤ) * 512
  let rootNote := stripTrailingDigits bassRoot
  -- const octave = 2
  let root := rootNote ++ "2"
  let third :=
    (match jsArrIdx chordNotes 1 with
     | some s => stripTrailingDigits s
     | none => "undefined") ++ "2"
  let fifth :=
    (match jsArrIdx chordNotes 2 with
     | some s => stripTrailingDigits s
     | none => "undefined") ++ "2"
  let octaveUp := rootNote ++ "3"
  -- `nextChord` is computed from `progression[(progressionPos + 1) % length]`
  -- in the source but never used and consumes no randomness
  let nextRootIdx := jsIndexOf NOTES rootNote
  let approachNote := jsNoteAt (jsMod (nextRootIdx + 11) 12) ++ "2"
  let bassVelocity := mathFloor (baseVelocity * ((17/20 : ℚ) : ℝ))
  if sect = .intro ∨ sect = .outro then do
    let v ← humanizeVelocity (bassVelocity - 10) 5
    pure [{ pitch := [root], duration := "1", velocity := v
          , startTick := tick, channel := none }]
  else if style = "jazz" then
    let walkingNotes :=
      if sect = .climax then [root, third, fifth, approachNote]
      else [root, fifth, root, approachNote]
    walkingNotes.enum.foldlM (fun evs p => do
      let swingDelay : ℤ := if p.1 = 1 ∨ p.1 = 3 then 12 else 0
      let v ← humanizeVelocity bassVelocity 8
      let t ← humanizeTiming (tick + (p.1 : ℤ) * 128 + swingDelay) 10
      pure (evs ++ [{ pitch := [p.2], duration := "4", velocity := v
                    , startTick := t, channel := none }])) []
  else if style = "lofi" then
    let lazyOffset : ℤ := 5
    let pat : List (ℕ × String × String) :=
      if sect = .climax then
        [ (0, root, "8"), (2, root, "16"), (4, third, "8"), (6, fifth, "8")
        , (8, root, "8"), (10, fifth, "16"), (12, third, "8"), (14, root, "8") ]
      else
        [ (0, root, "8"), (3, root, "16"), (6, fifth, "8")
        , (8, root, "8"), (11, third, "16"), (14, fifth, "8") ]
    pat.foldlM (fun evs p => do
      let v ← humanizeVelocity bassVelocity 10
      let t ← humanizeTiming (tick + (p.1 : ℤ) * 32 + lazyOffset) 8
      pure (evs ++ [{ pitch := [p.2.1], duration := p.2.2, velocity := v
                    , startTick := t, channel := none }])) []
  else if style = "electronic" then
    let noteCount : ℕ := if sect = .climax then 16 else 8
    (List.range noteCount).foldlM (fun evs (i : Nat) => do
      let note :=
        if i % 2 = 0 then root
        else if sect = .climax ∧ i % 4 = 1 then fifth else octaveUp
      let v ← humanizeVelocity
        (bassVelocity + (if sect = .climax then (15 : ℝ) else 10)) 5
      let t ← humanizeTiming (tick + (i : ℤ) * (512 / (noteCount : ℤ))) 3
      pure (evs ++ [{ pitch := [note]
                    , duration := if sect = .climax then "16" else "8"
                    , velocity := v, startTick := t, channel := none }])) []
  else if style = "classical" then
    let alberti :=
      if sect = .climax then [root, fifth, third, fifth, root, third, fifth, third]
      else [root, fifth, third, fifth, root, fifth, third, fifth]
    alberti.enum.foldlM (fun evs p => do
      let v ← humanizeVelocity (bassVelocity - 10) 8
      let t ← humanizeTiming (tick + (p.1 : ℤ) * 64) 5
      pure (evs ++ [{ pitch := [p.2], duration := "8", velocity := v
                    , startTick := t, channel := none }])) []
  else
    -- ambient and default: sustained root, split with an octave swell in climax
    if sect = .climax then do
      let v1 ← humanizeVelocity (bassVelocity - 10) 5
      let v2 ← humanizeVelocity (bassVelocity - 5) 5
      pure [ { pitch := [root], duration := "2", velocity := v1
             , startTick := tick, channel := none }
           , { pitch := [octaveUp], duration := "2", velocity := v2
             , startTick := tick + 256, channel := none } ]
    else do
      let v ← humanizeVelocity (bassVelocity - 15) 5
      pure [{ pitch := [root], duration := "1", velocity := v
            , startTick := tick, channel := none }]

/-- The position filter of `generateMelody`: one `Math.random()` draw per
candidate position, in list order, kept when the draw is below the
(strong-beat-boosted) density chance. -/
def melodyPositions (effectiveDensity phraseDensityMod : ℚ) :
    List ℕ → M (List ℕ)
  | [] => pure []
  | pos :: rest => do
    let r ← rand
    let chance :=
      if pos = 0 ∨ pos = 8 then effectiveDensity * (13/10)
      else effectiveDensity * phraseDensityMod
    let tail ← melodyPositions effectiveDensity phraseDensityMod rest
    pure (if r < chance then pos :: tail else tail)

/-- The per-bar context threaded through the melody note loop. -/
structure MelodyCtx where
  scale : List String
  chordNotes : List String
  chordMidis : List ℤ
  motif : List ℤ
  tick : ℤ
  baseVelocity : ℝ
  octaveRange : ℤ × ℤ
  phrase : Phrase
  phraseTargetScaleDegree : ℤ
  phraseTargetMidi : ℤ
  isEndOfPhrase : Bool
  positionsLength : ℕ
  style : String

/-- `noteToMidi` applied to a possibly-`undefined` string: JS throws a
`TypeError` on `undefined.match`. -/
def noteToMidiJs : Option String → M ℤ
  | some s => pure (MusicTheory.noteToMidi s)
  | none => jsThrow "TypeError"

/-- The result of the target-selection part of a melody-loop iteration:
the chosen scale degree, the chosen midi target, and the motif read index
after the `motif[motifIdx++]` mutations. -/
def melodyTargetFallback (ctx : MelodyCtx) (rest : List ℕ)
    (currentNote : Option String) (motifIdx : ℕ) : M (ℤ × ℤ × ℕ) := do
  -- the JS else-branch: approach the next strong beat or take a passing tone
  let currentMidi ← noteToMidiJs currentNote
  -- `notePositions.findIndex((p, idx) => idx > i && strongBeats.includes(p))`:
  -- the entries with index greater than i are exactly the remaining positions
  if rest.any (fun p => p = 0 ∨ p = 8) then do
    let nextChordTone ← fromJs (jsArrIdx ctx.chordNotes 0)
    let nextTargetMidi := MusicTheory.noteToMidi nextChordTone
    let targetMidi := currentMidi + (if nextTargetMidi > currentMidi then 1 else -1)
    let deg : ℤ :=
      match ctx.scale.findIdx? (fun s =>
          jsMod (MusicTheory.noteToMidi s) 12 = jsMod targetMidi 12) with
      | some n => (n : ℤ)
      | none => -1
    pure ((if deg = -1 then 0 else deg), targetMidi, motifIdx)
  else do
    let r1 ← rand
    let step : ℤ := if r1 > 1/2 then 1 else -1
    let r2 ← rand
    let targetMidi := currentMidi + step * (if r2 > 7/10 then 2 else 1)
    let deg : ℤ :=
      match ctx.scale.findIdx? (fun s =>
          jsMod (MusicTheory.noteToMidi s) 12 = jsMod targetMidi 12) with
      | some n => (n : ℤ)
      | none => -1
    pure ((if deg = -1 then 0 else deg), targetMidi, motifIdx)

/-- The `notePositions.forEach` loop of `generateMelody`: select a target per
position (phrase resolution, chord tone on strong beats, motif continuation, or
approach/passing tone), clamp into the style's octave range, pull back large
leaps, shape the velocity and emit the event. -/
noncomputable def melodyLoop (ctx : MelodyCtx) :
    List ℕ → ℕ → Option String → ℕ → List NoteEvent →
    M (Option String × List NoteEvent)
  | [], _, currentNote, _, events => pure (currentNote, events)
  | pos :: rest, i, currentNote, motifIdx, events => do
    let isLastNoteOfPhrase := i = ctx.positionsLength - 1 ∧ ctx.isEndOfPhrase
    let isStrongBeat := pos = 0 ∨ pos = 8
    let sel ←
      mIte isLastNoteOfPhrase
        (pure (ctx.phraseTargetScaleDegree, ctx.phraseTargetMidi, motifIdx))
        (mIte isStrongBeat
          (do
            -- strong beats prefer a random chord tone
            let r ← rand
            let chordToneIdx : ℤ := ⌊r * ctx.chordNotes.length⌋
            let chordTone ← fromJs (jsArrIdx ctx.chordNotes chordToneIdx)
            let found : ℤ :=
              match ctx.scale.findIdx? (fun s =>
                  stripTrailingDigits s = stripTrailingDigits chordTone) with
              | some n => (n : ℤ)
              | none => -1
            let degIdx : ℤ × ℕ :=
              if found = -1 then
                if motifIdx < ctx.motif.length then (ctx.motif.getD motifIdx 0, motifIdx + 1)
                else (0, motifIdx)
              else (found, motifIdx)
            let tm ← fromJs (jsArrIdx ctx.scale (jsMod degIdx.1 ctx.scale.length))
            pure (degIdx.1, MusicTheory.noteToMidi tm, degIdx.2))
          (mIte (motifIdx < ctx.motif.length)
            (do
              let r ← rand
              if r > 2/5 then do
                -- continue the motif
                let deg := ctx.motif.getD motifIdx 0
                let tm ← fromJs (jsArrIdx ctx.scale (jsMod deg ctx.scale.length))
                pure (deg, MusicTheory.noteToMidi tm, motifIdx + 1)
              else
                melodyTargetFallback ctx rest currentNote motifIdx)
            (melodyTargetFallback ctx rest currentNote motifIdx)))
    let targetScaleDegree := sel.1
    let targetMidi := sel.2.1
    let motifIdx := sel.2.2
    -- `let note = scale[...]; let midi = targetMidi || noteToMidi(note)`
    let note0 := jsArrIdx ctx.scale (jsMod targetScaleDegree ctx.scale.length)
    let midi0 ← mIte (targetMidi ≠ 0) (pure targetMidi) (noteToMidiJs note0)
    let prevMidi ← noteToMidiJs currentNote
    -- `while (midi < lo) midi += 12` and `while (midi > hi) midi -= 12`,
    -- written in closed form
    let lo := (ctx.octaveRange.1 + 1) * 12
    let hi := (ctx.octaveRange.2 + 1) * 12 + 11
    let midi1 := if midi0 < lo then lo + (midi0 - lo).emod 12 else midi0
    let midi2 := if midi1 > hi then hi - (hi - midi1).emod 12 else midi1
    let maxInterval : ℤ :=
      if ctx.style = "jazz" then 9 else if ctx.style = "classical" then 8 else 6
    let midi3 ←
      mIte (maxInterval < |midi2 - prevMidi|)
        (do
          let r ← rand
          if r > 3/20 then do
            let direction : ℤ := if midi2 > prevMidi then 1 else -1
            let r2 ← rand
            pure (prevMidi + direction * (if r2 > 1/2 then 3 else 2))
          else pure midi2)
        (pure midi2)
    let note := MusicTheory.midiToNote midi3
    let isChordTone := (jsMod midi3 12) ∈ ctx.chordMidis
    let isDownbeat := pos = 0 ∨ pos = 8
    let velocity0 := ctx.baseVelocity +
      (if isChordTone then (8 : ℝ) else 0) + (if isDownbeat then (5 : ℝ) else 0)
    let phraseProgress : ℚ := (i : ℚ) / max 1 ((ctx.positionsLength : ℚ) - 1)
    let velocity1 :=
      if ctx.phrase.type = "question" then
        velocity0 + ((⌊phraseProgress * 8⌋ : ℤ) : ℝ)
      else
        velocity0 - ((⌊phraseProgress * 6⌋ : ℤ) : ℝ)
    let timingOffset : ℤ ←
      mIte (ctx.style = "jazz" ∧ ¬isDownbeat) (pure 8)
        (mIte (ctx.style = "lofi")
          (do
            let r ← rand
            pure (⌊r * 6⌋ + 2))
          (pure 0))
    let velocity2 ← humanizeVelocity velocity1 10
    let duration ←
      mIte (isLastNoteOfPhrase ∧ ctx.phrase.type = "answer") (pure "4")
        (mIte isDownbeat
          (do
            let r ← rand
            pure (if r > 1/2 then "4" else "8"))
          (do
            let durations : List String :=
              if ctx.style = "ambient" then ["4", "2", "4"] else ["8", "8", "4", "8", "16"]
            let r ← rand
            pure ((jsArrIdx durations ⌊r * durations.length⌋).getD "undefined")))
    let st ← humanizeTiming (ctx.tick + (pos : ℤ) * 32 + timingOffset)
      (if ctx.style = "lofi" then 10 else 6)
    let ev : NoteEvent :=
      { pitch := [note], duration := duration, velocity := velocity2
      , startTick := st, channel := none }
    melodyLoop ctx rest (i + 1) (some note) motifIdx (events ++ [ev])

/-- `generateMelody`: returns the final note played (to seed continuity) and
the events of the bar. -/
noncomputable def generateMelody (scale : List String) (chordNotes : List String)
    (motif : List ℤ) (barNumber : ℕ) (baseVelocity : ℝ)
    (styleParams : StyleParams) (lastNote : Option String) (phrase : Phrase)
    (effectiveDensity : ℚ) (style : String) :
    M (Option String × List NoteEvent) := do
  let tick : ℤ := (barNumber : ℤ) * 512
  let octaveRange := styleParams.octaveRange
  let chordMidis := (chordNotes.map MusicTheory.noteToMidi).map (fun n => jsMod n 12)
  let isEndOfPhrase := (barNumber + 1) % 2 = 0
  let phraseDensityMod : ℚ :=
    if phrase.type = "answer" ∧ isEndOfPhrase then 7/10 else 1
  let allPositions : List ℕ := [0, 2, 4, 6, 8, 10, 12, 14]
  let positions0 ← melodyPositions effectiveDensity phraseDensityMod allPositions
  -- breathing room at the end of answer phrases: `notePositions.pop()`
  let notePositions :=
    if phrase.type = "answer" ∧ isEndOfPhrase ∧ 14 ∈ positions0 then
      positions0.dropLast
    else positions0
  let phraseTargetScaleDegree := phrase.targetResolution
  let phraseTargetNote :=
    jsArrIdx scale (jsMod phraseTargetScaleDegree scale.length)
  let phraseTargetMidi ← noteToMidiJs phraseTargetNote
  melodyLoop
    { scale := scale, chordNotes := chordNotes, chordMidis := chordMidis
    , motif := motif, tick := tick, baseVelocity := baseVelocity
    , octaveRange := octaveRange, phrase := phrase
    , phraseTargetScaleDegree := phraseTargetScaleDegree
    , phraseTargetMidi := phraseTargetMidi, isEndOfPhrase := isEndOfPhrase
    , positionsLength := notePositions.length, style := style }
    notePositions 0 lastNote 0 []

/-- A `{ note, velocity }` entry of `lastNotes`/`endingNotes`.  The `note`
field can be `undefined` in JS (it is written from a possibly-undefined
`lastMelodyNote`), hence the `Option`. -/
structure NoteVel where
  note : Option String
  velocity : ℝ

/-- A `{ notes, velocity }` entry of the chords part of
`lastNotes`/`endingNotes`. -/
structure ChordVel where
  notes : List String
  velocity : ℝ

/-- The `lastNotes`/`endingNotes` record. -/
structure LastNotes where
  melody : List NoteVel
  bass : List NoteVel
  chords : List ChordVel

/-- `ContinuationContext` as consumed by `generateSegment`. -/
structure ContinuationContext where
  key : String
  mode : String
  tempo : ℚ
  style : String
  progressionPosition : ℤ
  currentChord : Option String
  currentChordType : Option String
  lastNotes : LastNotes
  dynamics : Dynamics
  totalBars : ℤ
  motif : Option (List ℤ)

/-- `GenerationOptions`: every field optional, with the defaults applied by
`generateSegment`'s destructuring. -/
structure GenerationOptions where
  bars : Option ℤ
  key : Option String
  mode : Option String
  tempo : Option ℚ
  style : Option String
  totalBarsOffset : Option ℤ
  extensionDirection : Option String

/-- Empty options (every field undefined). -/
def GenerationOptions.none : GenerationOptions :=
  { bars := Option.none, key := Option.none, mode := Option.none
  , tempo := Option.none, style := Option.none, totalBarsOffset := Option.none
  , extensionDirection := Option.none }

/-- `SegmentInfo`, the returned snapshot of the ending musical state. -/
structure SegmentInfo where
  bars : ℤ
  durationSeconds : ℚ
  endingNotes : LastNotes
  endingChord : String
  endingChordType : String
  progressionPosition : ℤ
  dynamics : Dynamics
  motif : List ℤ

/-- The generation result.  The binary MIDI buffer and its base64 encoding are
produced by the external MIDI-writing library from the five per-role event
tracks, so the tracks themselves are the modelled output; `barChordTrace`
additionally records, bar by bar, the `(chordDegree, chordType)` pair
destructured from `progression[progressionPos % progression.length]` at the
top of the loop (line 347) — pure instrumentation used by the continuity
theorems, it influences nothing. -/
structure GenerationResult where
  melodyTrack : List NoteEvent
  chordTrack : List NoteEvent
  bassTrack : List NoteEvent
  padTrack : List NoteEvent
  drumTrack : List NoteEvent
  segmentInfo : SegmentInfo
  barChordTrace : List (ℤ × String)

/-- The per-call constants of the bar loop. -/
structure SegmentEnv where
  bars : ℤ
  key : String
  mode : String
  tempo : ℚ
  style : String
  totalBarsOffset : ℤ
  extensionDirection : String
  styleParams : StyleParams
  scale : List String
  progression : List (ℤ × String)
  motif : List ℤ

/-- The mutable state of the bar loop. -/
structure LoopState where
  progressionPos : ℤ
  dynamics : Dynamics
  motifVariation : ℕ
  lastMelodyNote : Option String
  endingMelody : List NoteVel
  endingBass : List NoteVel
  endingChords : List ChordVel
  melodyTrack : List NoteEvent
  chordTrack : List NoteEvent
  bassTrack : List NoteEvent
  padTrack : List NoteEvent
  drumTrack : List NoteEvent
  barChordTrace : List (ℤ × String)

/-- The progression advance of line 413:
`progressionPos = (progressionPos + 1) % progression.length`. -/
def advancePos (len : ℕ) (p : ℤ) : ℤ := jsMod (p + 1) len

/-- The pure progression-position recurrence of the bar loop. -/
def posAt (env : SegmentEnv) (p0 : ℤ) : ℕ → ℤ
  | 0 => p0
  | n + 1 =>
    if (n + 1) % getProgressionRate env.style = 0 then
      advancePos env.progression.length (posAt env p0 n)
    else posAt env p0 n

/-- One iteration of `generateSegment`'s bar loop. -/
noncomputable def generateSegmentBar (env : SegmentEnv) (bar : ℕ)
    (st : LoopState) : M LoopState := do
  -- `const [chordDegree, chordType] = progression[progressionPos % length]`
  -- (destructuring `undefined` throws)
  let pair ← fromJs (jsArrIdx env.progression
    (jsMod st.progressionPos env.progression.length))
  let chordNotes := MusicTheory.getChordFromDegree env.key env.mode pair.1 pair.2 3
  let chordNotesHigh := MusicTheory.getChordFromDegree env.key env.mode pair.1 pair.2 4
  -- `chordNotes[0].replace(/\d+$/, '') + '2'`
  let h ← fromJs chordNotes.head?
  let bassRoot := stripTrailingDigits h ++ "2"
  let sect := getSongSection (bar : ℤ) env.bars env.totalBarsOffset
    env.extensionDirection
  let sectionConfig := SECTION_CONFIGS sect
  let phrase ← getPhraseType bar
  let baseVelocity := barBaseVelocity st.dynamics bar env.bars sectionConfig
  -- line 361 calls `getSongSection(bar + 1, bars)` with the default offset 0
  -- and direction continue
  let isLastBarOfSection := getSongSection ((bar : ℤ) + 1) env.bars 0 "continue" ≠ sect
  -- `is4BarBoundary` is computed in the source but never used
  let drumEvs ←
    mIte (sectionConfig.drums ≠ "none")
      (generateDrums bar env.style baseVelocity st.dynamics sectionConfig.drums
        isLastBarOfSection)
      (pure [])
  let padEvs ←
    mIte (sectionConfig.pad ∧ (env.style = "ambient" ∨ env.style = "electronic" ∨
        sect = .intro ∨ sect = .outro))
      (generatePad chordNotesHigh bar
        (baseVelocity * (if sect = .climax then ((11/10 : ℚ) : ℝ) else ((9/10 : ℚ) : ℝ))))
      (pure [])
  let chordEvs ←
    mIte sectionConfig.chords
      (generateChords chordNotes bar baseVelocity env.style env.styleParams sect)
      (pure [])
  let bassEvs ←
    mIte sectionConfig.bass
      (generateBass bassRoot chordNotes bar baseVelocity env.style
        env.progression st.progressionPos sect)
      (pure [])
  let melodyRes ←
    mIte sectionConfig.melody
      (generateMelody env.scale chordNotes
        (varyMotif env.motif st.motifVariation env.scale.length) bar baseVelocity
        env.styleParams st.lastMelodyNote phrase
        (env.styleParams.noteDensity * sectionConfig.density) env.style)
      (pure (st.lastMelodyNote, []))
  let lastMelodyNote := melodyRes.1
  let trackEnding := (bar : ℤ) ≥ env.bars - 2
  let rate := getProgressionRate env.style
  let advanced := (bar + 1) % rate = 0
  let newDynamics ← evolveDynamics st.dynamics bar env.bars
  pure
    { progressionPos :=
        if advanced then advancePos env.progression.length st.progressionPos
        else st.progressionPos
    , dynamics := newDynamics
    , motifVariation := if advanced then st.motifVariation + 1 else st.motifVariation
    , lastMelodyNote := lastMelodyNote
    , endingMelody :=
        if trackEnding then
          st.endingMelody ++ [{ note := lastMelodyNote, velocity := baseVelocity }]
        else st.endingMelody
    , endingBass :=
        if trackEnding then
          st.endingBass ++ [{ note := some bassRoot, velocity := baseVelocity }]
        else st.endingBass
    , endingChords :=
        if trackEnding then
          st.endingChords ++ [{ notes := chordNotes, velocity := baseVelocity }]
        else st.endingChords
    , melodyTrack := st.melodyTrack ++ melodyRes.2
    , chordTrack := st.chordTrack ++ chordEvs
    , bassTrack := st.bassTrack ++ bassEvs
    , padTrack := st.padTrack ++ padEvs
    , drumTrack := st.drumTrack ++ drumEvs
    , barChordTrace := st.barChordTrace ++ [pair] }

/-- The dynamics a fresh piece starts from. -/
def initialDynamics : Dynamics :=
  { level := "medium", direction := "stable", velocityTrend := 0 }

/-- The scale set up by `generateSegment` (line 306: the local `getScale`
applied to the defaulted key and mode at octave 4). -/
def segScaleOf (options : GenerationOptions) : List String :=
  getScale (options.key.getD "C") (options.mode.getD "major") 4

/-- The per-call environment assembled from the destructured option defaults
(`bars = 16`, `key = 'C'`, `mode = 'major'`, `tempo = 90`, `style = 'ambient'`,
`totalBarsOffset = 0`, `extensionDirection = 'continue'`), the style-parameter
lookup with its ambient fallback, the scale and the progression. -/
def segEnvOf (options : GenerationOptions) (motif : List ℤ) : SegmentEnv :=
  { bars := options.bars.getD 16
  , key := options.key.getD "C"
  , mode := options.mode.getD "major"
  , tempo := options.tempo.getD 90
  , style := options.style.getD "ambient"
  , totalBarsOffset := options.totalBarsOffset.getD 0
  , extensionDirection := options.extensionDirection.getD "continue"
  , styleParams :=
      (MusicTheory.STYLE_PARAMS.lookup (options.style.getD "ambient")).getD
        MusicTheory.ambientParams
  , scale := segScaleOf options
  , progression := MusicTheory.getProgression (options.style.getD "ambient")
  , motif := motif }

/-- `const motif = continuationContext?.motif || generateMotif(scale.length)`:
any array, even an empty one, is truthy, so a present motif is always taken;
only a missing one triggers the random draw. -/
def motifStep (continuationContext : Option ContinuationContext)
    (scale : List String) : M (List ℤ) :=
  match continuationContext.bind (fun c => c.motif) with
  | some l => pure l
  | none => generateMotif scale.length

/-- The initial loop state of `generateSegment`:

* `progressionPos`: `continuationContext?.progressionPosition || 0` (the only
  falsy number that can reach the fallback is 0 itself, whose fallback is 0);
* `dynamics`: `continuationContext?.dynamics || {medium, stable, 0}`;
* `lastMelodyNote`: `continuationContext?.lastNotes?.melody?.[0]?.note ||
  scale[motif[0]]` — the empty string is falsy, and `scale[motif[0]]` is
  `undefined` both when the motif is empty and when its head is out of range. -/
def segInitOf (continuationContext : Option ContinuationContext)
    (scale : List String) (motif : List ℤ) : LoopState :=
  let scaleAtMotifHead : Option String :=
    match motif.head? with
    | some d => jsArrIdx scale d
    | none => Option.none
  { progressionPos :=
      (continuationContext.map (fun c => c.progressionPosition)).getD 0
  , dynamics := (continuationContext.map (fun c => c.dynamics)).getD initialDynamics
  , motifVariation := 0
  , lastMelodyNote :=
      match continuationContext.bind
          (fun c => c.lastNotes.melody.head?.bind (fun e => e.note)) with
      | some s => if s = "" then scaleAtMotifHead else some s
      | none => scaleAtMotifHead
  , endingMelody := [], endingBass := [], endingChords := []
  , melodyTrack := [], chordTrack := [], bassTrack := [], padTrack := []
  , drumTrack := [], barChordTrace := [] }

/-- The bar loop of `generateSegment` over bars `0 .. n-1`. -/
noncomputable def segLoop (env : SegmentEnv) (n : ℕ) (init : LoopState) :
    M LoopState :=
  (List.range n).foldlM (fun st bar => generateSegmentBar env bar st) init

/-- The epilogue of `generateSegment`: compute `durationSeconds`, resolve the
final chord from `progression[(pos - 1 + length) % length]` (destructuring it
and calling `.replace` on its first chord note, both throwing on `undefined`),
and package the result. -/
noncomputable def finishSegment (env : SegmentEnv) (final : LoopState) :
    M GenerationResult := do
  let durationSeconds : ℚ := (env.bars : ℚ) * 4 / env.tempo * 60
  let finalChord ← fromJs (jsArrIdx env.progression
    (jsMod (final.progressionPos - 1 + env.progression.length)
      env.progression.length))
  let finalChordNotes :=
    MusicTheory.getChordFromDegree env.key env.mode finalChord.1 finalChord.2 3
  let fh ← fromJs finalChordNotes.head?
  pure
    { melodyTrack := final.melodyTrack
    , chordTrack := final.chordTrack
    , bassTrack := final.bassTrack
    , padTrack := final.padTrack
    , drumTrack := final.drumTrack
    , segmentInfo :=
        { bars := env.bars, durationSeconds := durationSeconds
        , endingNotes :=
            { melody := final.endingMelody, bass := final.endingBass
            , chords := final.endingChords }
        , endingChord := stripTrailingDigits fh
        , endingChordType := finalChord.2
        , progressionPosition := final.progressionPos
        , dynamics := final.dynamics
        , motif := env.motif }
    , barChordTrace := final.barChordTrace }

/-- `generateSegment`: resolve the option defaults, set up scale, progression,
motif and dynamics (from the continuation context when given), run the bar
loop, and package the ending state. -/
noncomputable def generateSegment (options : GenerationOptions)
    (continuationContext : Option ContinuationContext) : M GenerationResult := do
  let scale := segScaleOf options
  let motif ← motifStep continuationContext scale
  let env := segEnvOf options motif
  let init := segInitOf continuationContext scale motif
  let final ← segLoop env env.bars.toNat init
  finishSegment env final

/-! ### Discrete projections of a run

These observe only the rational/integer/string parts of a result, so they can
be evaluated by the kernel even though the velocities are real numbers. -/

/-- Whether a run completed without a JS exception. -/
def resultIsOk : Except String (GenerationResult × RandStream) → Bool
  | Except.ok _ => true
  | Except.error _ => false

/-- The returned `progressionPosition`, when the run completed. -/
def resultProgPos : Except String (GenerationResult × RandStream) → Option ℤ
  | Except.ok (r, _) => some r.segmentInfo.progressionPosition
  | Except.error _ => Option.none

/-- The returned motif, when the run completed. -/
def resultMotif : Except String (GenerationResult × RandStream) → Option (List ℤ)
  | Except.ok (r, _) => some r.segmentInfo.motif
  | Except.error _ => Option.none

/-- The returned `durationSeconds`, when the run completed. -/
def resultDuration : Except String (GenerationResult × RandStream) → Option ℚ
  | Except.ok (r, _) => some r.segmentInfo.durationSeconds
  | Except.error _ => Option.none

/-- The returned `endingChord`, when the run completed. -/
def resultEndingChord : Except String (GenerationResult × RandStream) → Option String
  | Except.ok (r, _) => some r.segmentInfo.endingChord
  | Except.error _ => Option.none

/-- The returned `endingChordType`, when the run completed. -/
def resultEndingChordType : Except String (GenerationResult × RandStream) → Option String
  | Except.ok (r, _) => some r.segmentInfo.endingChordType
  | Except.error _ => Option.none

/-- The head of the per-bar chord trace (the chord pair resolved for bar 0). -/
def resultFirstBarChord :
    Except String (GenerationResult × RandStream) → Option (ℤ × String)
  | Except.ok (r, _) => r.barChordTrace.head?
  | Except.error _ => Option.none

/-- The last entry of the per-bar chord trace (the chord pair resolved for the
final bar). -/
def resultLastBarChord :
    Except String (GenerationResult × RandStream) → Option (ℤ × String)
  | Except.ok (r, _) => r.barChordTrace.getLast?
  | Except.error _ => Option.none

/-- The chord pair the bar loop selects from position `p`
(`progression[progressionPos % progression.length]`). -/
def chordSelAt (env : SegmentEnv) (p : ℤ) : Option (ℤ × String) :=
  jsArrIdx env.progression (jsMod p env.progression.length)

/-- The event contract of the spec: velocity in `[1, 127]` and a nonnegative
start tick (ticks are integers by construction in this model). -/
def eventOk (e : NoteEvent) : Prop :=
  1 ≤ e.velocity ∧ e.velocity ≤ 127 ∧ 0 ≤ e.startTick

/-- The velocity is an integer (as a real). -/
def intVel (e : NoteEvent) : Prop := ∃ n : ℤ, e.velocity = (n : ℝ)

/-- All events of a track satisfy the bounds. -/
def evsOk (l : List NoteEvent) : Prop := ∀ e ∈ l, eventOk e

/-- All events of a track satisfy the bounds with integral velocity. -/
def evsOkInt (l : List NoteEvent) : Prop := ∀ e ∈ l, eventOk e ∧ intVel e

/-- Track invariant of the loop state: every emitted event is in bounds, and
the four non-melody tracks carry integral velocities. -/
def stateTracksOk (st : LoopState) : Prop :=
  evsOk st.melodyTrack ∧ evsOkInt st.chordTrack ∧ evsOkInt st.bassTrack ∧
  evsOkInt st.padTrack ∧ evsOkInt st.drumTrack

/-- The event bounds on a full generation result. -/
def tracksOk (r : GenerationResult) : Prop :=
  evsOk r.melodyTrack ∧ evsOkInt r.chordTrack ∧ evsOkInt r.bassTrack ∧
  evsOkInt r.padTrack ∧ evsOkInt r.drumTrack

/-- The event bounds on the outcome of a run (vacuous on a thrown error). -/
def resultEventsOk : Except String (GenerationResult × RandStream) → Prop
  | Except.ok (r, _) => tracksOk r
  | Except.error _ => True

/-! ### Shared fixtures for concrete runs -/

/-- A nonempty `lastNotes` with a melody note. -/
def sampleLastNotes : LastNotes :=
  { melody := [{ note := some "E4", velocity := 70 }], bass := [], chords := [] }

/-- An entirely empty `lastNotes`. -/
def emptyLastNotes : LastNotes := { melody := [], bass := [], chords := [] }

/-- A well-formed continuation context over C major at the given progression
position and motif. -/
def sampleContext (pos : ℤ) (motif : Option (List ℤ)) : ContinuationContext :=
  { key := "C", mode := "major", tempo := 90, style := "ambient"
  , progressionPosition := pos, currentChord := Option.none
  , currentChordType := Option.none, lastNotes := sampleLastNotes
  , dynamics := initialDynamics, totalBars := 0, motif := motif }

/-- A degenerate continuation context: empty motif and no last melody note
(all fields well-typed per the TypeScript interface). -/
def degenerateContext : ContinuationContext :=
  { key := "C", mode := "major", tempo := 90, style := "ambient"
  , progressionPosition := 0, currentChord := Option.none
  , currentChordType := Option.none, lastNotes := emptyLastNotes
  , dynamics := initialDynamics, totalBars := 0, motif := some [] }

/-- Options with the remaining fields left undefined. -/
def sampleOptions (bars : Option ℤ) (style : Option String)
    (totalBarsOffset : Option ℤ) (extensionDirection : Option String) :
    GenerationOptions :=
  { bars := bars, key := Option.none, mode := Option.none
  , tempo := Option.none, style := style, totalBarsOffset := totalBarsOffset
  , extensionDirection := extensionDirection }

/-- The velocity of the first melody-track event of a run. -/
def resultFirstMelodyVelocity :
    Except String (GenerationResult × RandStream) → Option ℝ
  | Except.ok (r, _) => r.melodyTrack.head?.map (fun e => e.velocity)
  | Except.error _ => Option.none

/-- A context whose dynamics carry a slight rising trend. -/
def trendContext : ContinuationContext :=
  { key := "C", mode := "major", tempo := 90, style := "ambient"
  , progressionPosition := 1, currentChord := Option.none
  , currentChordType := Option.none, lastNotes := sampleLastNotes
  , dynamics := { level := "medium", direction := "stable", velocityTrend := 1/20 }
  , totalBars := 0, motif := some [2, 3] }

/-- The exact velocity of the first melody event of the counterexample run,
read off the melody generator's code path (strong beat, chord tone, downbeat,
question phrase, ambient timing): the un-floored base velocity plus integer
emphases and jitter, clamped to `[1, 127]`. -/
noncomputable def counterexampleVelocity : ℝ :=
  min 127 (max 1
    (barBaseVelocity
        { level := "medium", direction := "stable", velocityTrend := 1/20 }
        0 1 (SECTION_CONFIGS .outro) +
      8 + 5 + (((⌊((0 : ℚ)) * 8⌋ : ℤ)) : ℝ) +
      (((⌊((13/100 : ℚ) - 1/2) * 10 * 2⌋ : ℤ)) : ℝ)))

end Generator

/-! ## Reasoning principles for the generation monad -/

theorem pure_apply {α : Type} (a : α) (s : RandStream) :
    (pure a : M α) s = Except.ok (a, s) := rfl

theorem bind_apply {α β : Type} (m : M α) (f : α → M β) (s : RandStream) :
    (m >>= f) s =
      match m s with
      | Except.ok (a, s1) => f a s1
      | Except.error e => Except.error e := rfl

theorem rand_apply (s : RandStream) :
    rand s = Except.ok (s 0, fun n => s (n + 1)) := rfl

theorem bind_ok_elim {α β : Type} {m : M α} {f : α → M β} {s : RandStream}
    {b : β} {s2 : RandStream} (h : (m >>= f) s = Except.ok (b, s2)) :
    ∃ a s1, m s = Except.ok (a, s1) ∧ f a s1 = Except.ok (b, s2) := by
  have hb : (m >>= f) s =
      match m s with
      | Except.ok (a, s1) => f a s1
      | Except.error e => Except.error e := rfl
  rw [hb] at h
  cases hm : m s with
  | ok p =>
    cases p with
    | mk a s1 =>
      rw [hm] at h
      exact ⟨a, s1, rfl, h⟩
  | error e =>
    rw [hm] at h
    exact absurd h (by simp)

theorem pure_ok_elim {α : Type} {a b : α} {s s2 : RandStream}
    (h : (pure a : M α) s = Except.ok (b, s2)) : b = a ∧ s2 = s := by
  have : Except.ok (α := α × RandStream) (ε := String) (a, s) = Except.ok (b, s2) := h
  injection this with h2
  injection h2 with h3 h4
  exact ⟨h3.symm, h4.symm⟩

theorem fromJs_ok_elim {α : Type} {o : Option α} {a : α} {s s2 : RandStream}
    (h : fromJs o s = Except.ok (a, s2)) : o = some a ∧ s2 = s := by
  cases o with
  | some x =>
    obtain ⟨h1, h2⟩ := pure_ok_elim (a := x) h
    exact ⟨by rw [h1], h2⟩
  | none => exact absurd h (by simp [fromJs, jsThrow])

theorem rand_ok_elim {q : ℚ} {s s2 : RandStream}
    (h : rand s = Except.ok (q, s2)) : q = s 0 ∧ s2 = fun n => s (n + 1) := by
  have : Except.ok (α := ℚ × RandStream) (ε := String)
      (s 0, fun n => s (n + 1)) = Except.ok (q, s2) := h
  injection this with h2
  injection h2 with h3 h4
  exact ⟨h3.symm, h4.symm⟩

theorem MOk_pure {α : Type} {a : α} {Q : α → Prop} (h : Q a) :
    MOk (pure a) Q := by
  intro s b s2 hb
  obtain ⟨h1, _⟩ := pure_ok_elim hb
  rwa [h1]

theorem MOk_bind {α β : Type} {m : M α} {f : α → M β} {P : α → Prop}
    {Q : β → Prop} (hm : MOk m P) (hf : ∀ a, P a → MOk (f a) Q) :
    MOk (m >>= f) Q := by
  intro s b s2 hb
  obtain ⟨a, s1, ha, hfa⟩ := bind_ok_elim hb
  exact hf a (hm s a s1 ha) s1 b s2 hfa

theorem MOk_rand {Q : ℚ → Prop} (h : ∀ q, Q q) : MOk rand Q := by
  intro s a s2 _
  exact h a

theorem MOk_fromJs {α : Type} {o : Option α} :
    MOk (fromJs o) (fun a => o = some a) := by
  intro s a s2 h
  exact (fromJs_ok_elim h).1

theorem MOk_mono {α : Type} {m : M α} {P Q : α → Prop} (hm : MOk m P)
    (h : ∀ a, P a → Q a) : MOk m Q := by
  intro s a s2 ha
  exact h a (hm s a s2 ha)

theorem MOk_true {α : Type} (m : M α) : MOk m (fun _ => True) := by
  intro _ _ _ _
  trivial

theorem goodStream_const {q : ℚ} (h0 : 0 ≤ q) (h1 : q < 1) :
    goodStream (constStream q) := fun _ => ⟨h0, h1⟩

theorem goodStream_tail {s : RandStream} (h : goodStream s) :
    goodStream (fun n => s (n + 1)) := fun n => h (n + 1)

theorem MTot_pure {α : Type} {a : α} {Q : α → Prop} (h : Q a) :
    MTot (pure a) Q := by
  intro s hs
  exact ⟨a, s, rfl, h, hs⟩

theorem MTot_bind {α β : Type} {m : M α} {f : α → M β} {P : α → Prop}
    {Q : β → Prop} (hm : MTot m P) (hf : ∀ a, P a → MTot (f a) Q) :
    MTot (m >>= f) Q := by
  intro s hs
  obtain ⟨a, s1, ha, hPa, hs1⟩ := hm s hs
  obtain ⟨b, s2, hb, hQb, hs2⟩ := hf a hPa s1 hs1
  refine ⟨b, s2, ?_, hQb, hs2⟩
  have hb2 : (m >>= f) s =
      match m s with
      | Except.ok (a, s1) => f a s1
      | Except.error e => Except.error e := rfl
  rw [hb2, ha]
  exact hb

theorem MTot_rand : MTot rand (fun q => 0 ≤ q ∧ q < 1) := by
  intro s hs
  exact ⟨s 0, fun n => s (n + 1), rfl, hs 0, goodStream_tail hs⟩

theorem MTot_fromJs {α : Type} {o : Option α} {a : α} (h : o = some a) :
    MTot (fromJs o) (fun x => x = a) := by
  subst h
  intro s hs
  exact ⟨a, s, rfl, rfl, hs⟩

theorem MTot_fromJs_isSome {α : Type} {o : Option α} (h : o.isSome) :
    MTot (fromJs o) (fun x => o = some x) := by
  cases o with
  | some a =>
    intro s hs
    exact ⟨a, s, rfl, rfl, hs⟩
  | none => simp at h

theorem MTot_mono {α : Type} {m : M α} {P Q : α → Prop} (hm : MTot m P)
    (h : ∀ a, P a → Q a) : MTot m Q := by
  intro s hs
  obtain ⟨a, s2, ha, hPa, hs2⟩ := hm s hs
  exact ⟨a, s2, ha, h a hPa, hs2⟩

theorem MTot_MOk {α : Type} {m : M α} {Q : α → Prop} (hm : MTot m Q) :
    ∀ s, goodStream s → ∃ a s2, m s = Except.ok (a, s2) := by
  intro s hs
  obtain ⟨a, s2, ha, _, _⟩ := hm s hs
  exact ⟨a, s2, ha⟩


theorem M_pure_bind {α β : Type} (a : α) (f : α → M β) :
    (pure a >>= f) = f a := rfl

theorem M_bind_pure {α : Type} (m : M α) : (m >>= pure) = m := by
  funext s
  have hb : (m >>= pure) s =
      match m s with
      | Except.ok (a, s1) => (pure a : M α) s1
      | Except.error e => Except.error e := rfl
  rw [hb]
  cases m s with
  | ok p => cases p with | mk a s1 => rfl
  | error e => rfl

theorem M_bind_assoc {α β γ : Type} (m : M α) (f : α → M β) (g : β → M γ) :
    ((m >>= f) >>= g) = (m >>= fun a => f a >>= g) := by
  funext s
  have h1 : ((m >>= f) >>= g) s =
      match (m >>= f) s with
      | Except.ok (a, s1) => g a s1
      | Except.error e => Except.error e := rfl
  have h2 : (m >>= f) s =
      match m s with
      | Except.ok (a, s1) => f a s1
      | Except.error e => Except.error e := rfl
  have h3 : (m >>= fun a => f a >>= g) s =
      match m s with
      | Except.ok (a, s1) => (f a >>= g) s1
      | Except.error e => Except.error e := rfl
  rw [h1, h2, h3]
  cases m s with
  | ok p =>
    cases p with
    | mk a s1 =>
      show (match f a s1 with
        | Except.ok (b, s2) => g b s2
        | Except.error e => Except.error e) = (f a >>= g) s1
      rfl
  | error e => rfl

theorem M_foldlM_append {α σ : Type} (l1 l2 : List α) (f : σ → α → M σ)
    (b : σ) :
    (l1 ++ l2).foldlM f b = l1.foldlM f b >>= fun x => l2.foldlM f x := by
  induction l1 generalizing b with
  | nil => simp [List.foldlM_nil, M_pure_bind]
  | cons a l ih =>
    show (f b a >>= fun x => (l ++ l2).foldlM f x) =
      ((f b a >>= fun x => l.foldlM f x) >>= fun x => l2.foldlM f x)
    rw [M_bind_assoc]
    refine congrArg (fun g => f b a >>= g) ?_
    funext x
    exact ih x

theorem MOk_mIte {α : Type} {c : Prop} [Decidable c] {t e : M α} {Q : α → Prop}
    (ht : c → MOk t Q) (he : ¬c → MOk e Q) : MOk (mIte c t e) Q := by
  unfold mIte
  by_cases hc : c
  · rw [if_pos hc]; exact ht hc
  · rw [if_neg hc]; exact he hc

theorem MOk_mIte_true {α : Type} {c : Prop} [Decidable c] {t e : M α} :
    MOk (mIte c t e) (fun _ => True) := MOk_true _

namespace Generator


theorem segLoop_zero (env : SegmentEnv) (init : LoopState) :
    segLoop env 0 init = pure init := rfl

theorem segLoop_succ (env : SegmentEnv) (n : ℕ) (init : LoopState) :
    segLoop env (n + 1) init =
      segLoop env n init >>= generateSegmentBar env n := by
  unfold segLoop
  rw [List.range_succ, M_foldlM_append]
  refine congrArg (fun g => _ >>= g) ?_
  funext x
  show (generateSegmentBar env n x >>= fun y => pure y) = generateSegmentBar env n x
  rw [M_bind_pure]

theorem bar_MOk (env : SegmentEnv) (bar : ℕ) (st : LoopState) :
    MOk (generateSegmentBar env bar st) (fun st2 =>
      (chordSelAt env st.progressionPos).isSome ∧
      st2.progressionPos =
        (if (bar + 1) % getProgressionRate env.style = 0 then
          advancePos env.progression.length st.progressionPos
        else st.progressionPos) ∧
      st2.motifVariation =
        (if (bar + 1) % getProgressionRate env.style = 0 then
          st.motifVariation + 1
        else st.motifVariation) ∧
      st2.barChordTrace = st.barChordTrace ++
        [(chordSelAt env st.progressionPos).getD (0, "")]) := by
  unfold generateSegmentBar
  refine MOk_bind MOk_fromJs (fun pair hpair => ?_)
  refine MOk_bind MOk_fromJs (fun h0 _ => ?_)
  refine MOk_bind (MOk_true _) (fun phrase _ => ?_)
  refine MOk_bind (MOk_true _) (fun drumEvs _ => ?_)
  refine MOk_bind (MOk_true _) (fun padEvs _ => ?_)
  refine MOk_bind (MOk_true _) (fun chordEvs _ => ?_)
  refine MOk_bind (MOk_true _) (fun bassEvs _ => ?_)
  refine MOk_bind (MOk_true _) (fun melodyRes _ => ?_)
  refine MOk_bind (MOk_true _) (fun newDynamics _ => ?_)
  refine MOk_pure ⟨?_, rfl, rfl, ?_⟩
  · show (chordSelAt env st.progressionPos).isSome
    unfold chordSelAt
    rw [hpair]
    rfl
  · show st.barChordTrace ++ [pair] = _
    unfold chordSelAt
    rw [hpair]
    rfl

theorem segLoop_trace (env : SegmentEnv) (init : LoopState) (n : ℕ) :
    MOk (segLoop env n init) (fun st =>
      st.progressionPos = posAt env init.progressionPos n ∧
      st.barChordTrace = init.barChordTrace ++
        (List.range n).map (fun k =>
          (chordSelAt env (posAt env init.progressionPos k)).getD (0, "")) ∧
      ∀ k, k < n → (chordSelAt env (posAt env init.progressionPos k)).isSome) := by
  induction n with
  | zero =>
    rw [segLoop_zero]
    refine MOk_pure ⟨rfl, by simp, fun k hk => absurd hk (Nat.not_lt_zero k)⟩
  | succ n ih =>
    rw [segLoop_succ]
    refine MOk_bind ih (fun st1 h1 => ?_)
    refine MOk_mono (bar_MOk env n st1) (fun st2 h2 => ?_)
    obtain ⟨hpos1, htr1, hsome1⟩ := h1
    obtain ⟨hsome2, hpos2, _, htr2⟩ := h2
    refine ⟨?_, ?_, ?_⟩
    · rw [hpos2, hpos1]
      exact (rfl :
        (if (n + 1) % getProgressionRate env.style = 0 then
          advancePos env.progression.length (posAt env init.progressionPos n)
        else posAt env init.progressionPos n) =
          posAt env init.progressionPos (n + 1))
    · rw [htr2, htr1, hpos1, List.range_succ, List.map_append]
      simp
    · intro k hk
      rcases Nat.lt_succ_iff_lt_or_eq.mp hk with h | h
      · exact hsome1 k h
      · rw [h, ← hpos1]
        exact hsome2

theorem jsMod_bounds {a : ℤ} {n : ℕ} (ha : 0 ≤ a) (hn : 0 < n) :
    0 ≤ jsMod a n ∧ jsMod a n < n := by
  unfold jsMod
  exact ⟨Int.tmod_nonneg _ ha, Int.tmod_lt_of_pos a (by positivity)⟩

theorem getProgression_length_pos (style : String) :
    0 < (MusicTheory.getProgression style).length := by
  unfold MusicTheory.getProgression MusicTheory.PROGRESSIONS
  simp only [List.lookup]
  repeat' split
  all_goals simp_all [MusicTheory.PROGRESSIONS_pop]

theorem posAt_bounds (env : SegmentEnv) {p0 : ℤ}
    (hlen : 0 < env.progression.length)
    (h0 : 0 ≤ p0 ∧ p0 < env.progression.length) :
    ∀ n, 0 ≤ posAt env p0 n ∧ posAt env p0 n < env.progression.length := by
  intro n
  induction n with
  | zero => exact h0
  | succ n ih =>
    unfold posAt
    split
    · have := jsMod_bounds (a := posAt env p0 n + 1) (by omega) hlen
      unfold advancePos
      omega
    · exact ih

theorem finishSegment_ok {env : SegmentEnv} {final : LoopState} {s : RandStream}
    {r : GenerationResult} {s2 : RandStream}
    (h : finishSegment env final s = Except.ok (r, s2)) :
    ∃ fp fh,
      jsArrIdx env.progression
        (jsMod (final.progressionPos - 1 + env.progression.length)
          env.progression.length) = some fp ∧
      (MusicTheory.getChordFromDegree env.key env.mode fp.1 fp.2 3).head? = some fh ∧
      r.segmentInfo.bars = env.bars ∧
      r.segmentInfo.durationSeconds = (env.bars : ℚ) * 4 / env.tempo * 60 ∧
      r.segmentInfo.endingChord = stripTrailingDigits fh ∧
      r.segmentInfo.endingChordType = fp.2 ∧
      r.segmentInfo.progressionPosition = final.progressionPos ∧
      r.segmentInfo.motif = env.motif ∧
      r.barChordTrace = final.barChordTrace ∧
      r.melodyTrack = final.melodyTrack ∧
      r.chordTrack = final.chordTrack ∧
      r.bassTrack = final.bassTrack ∧
      r.padTrack = final.padTrack ∧
      r.drumTrack = final.drumTrack := by
  unfold finishSegment at h
  dsimp only at h
  obtain ⟨fp, s1, hfp, h⟩ := bind_ok_elim h
  obtain ⟨fh, s1b, hfh, h⟩ := bind_ok_elim h
  obtain ⟨hr, _⟩ := pure_ok_elim h
  subst hr
  exact ⟨fp, fh, (fromJs_ok_elim hfp).1, (fromJs_ok_elim hfh).1, rfl, rfl, rfl,
    rfl, rfl, rfl, rfl, rfl, rfl, rfl, rfl, rfl⟩

theorem generateSegment_eq (options : GenerationOptions)
    (ctx : Option ContinuationContext) :
    generateSegment options ctx =
      motifStep ctx (segScaleOf options) >>= fun motif =>
        segLoop (segEnvOf options motif) (segEnvOf options motif).bars.toNat
          (segInitOf ctx (segScaleOf options) motif) >>= fun final =>
          finishSegment (segEnvOf options motif) final := rfl


/-! ## Claim-level helper lemmas -/

theorem generateSegment_ok_elim {options : GenerationOptions}
    {ctx : Option ContinuationContext} {s : RandStream} {r : GenerationResult}
    {s2 : RandStream} (h : generateSegment options ctx s = Except.ok (r, s2)) :
    ∃ motif s1 final s3,
      motifStep ctx (segScaleOf options) s = Except.ok (motif, s1) ∧
      segLoop (segEnvOf options motif) (segEnvOf options motif).bars.toNat
        (segInitOf ctx (segScaleOf options) motif) s1 = Except.ok (final, s3) ∧
      finishSegment (segEnvOf options motif) final s3 = Except.ok (r, s2) := by
  rw [generateSegment_eq] at h
  obtain ⟨motif, s1, h1, h⟩ := bind_ok_elim h
  obtain ⟨final, s3, h2, h3⟩ := bind_ok_elim h
  exact ⟨motif, s1, final, s3, h1, h2, h3⟩

theorem jsMod_eq_emod {a : ℤ} (n : ℕ) (h : 0 ≤ a) : jsMod a n = a % n :=
  Int.tmod_eq_emod h (by positivity)

theorem posAt_nonneg (env : SegmentEnv) {p0 : ℤ} (h0 : 0 ≤ p0)
    (hlen : 0 < env.progression.length) :
    ∀ n, 0 ≤ posAt env p0 n := by
  intro n
  induction n with
  | zero => exact h0
  | succ n ih =>
    unfold posAt
    split
    · exact Int.tmod_nonneg _ (by omega)
    · exact ih

theorem advancePos_cycle {len : ℕ} (hlen : 0 < len) {p : ℤ} (h0 : 0 ≤ p)
    (hlt : p < len) : (advancePos len)^[len] p = p := by
  have key : ∀ k, 1 ≤ k → (advancePos len)^[k] p = (p + k) % (len : ℤ) := by
    intro k hk
    induction k with
    | zero => omega
    | succ k ih =>
      rcases Nat.eq_or_lt_of_le hk with h1 | h1
      · have hk0 : k = 0 := by omega
        subst hk0
        show advancePos len p = (p + 1) % (len : ℤ)
        unfold advancePos
        exact jsMod_eq_emod len (by omega)
      · have hk1 : 1 ≤ k := by omega
        rw [Function.iterate_succ_apply', ih hk1]
        unfold advancePos
        have hnn : (0 : ℤ) ≤ (p + k) % (len : ℤ) :=
          Int.emod_nonneg _ (by positivity)
        rw [jsMod_eq_emod len (by omega)]
        have hcast : (p + ((k : ℤ) + 1)) = (p + (k : ℤ)) + 1 := by ring
        push_cast
        rw [hcast]
        conv_rhs => rw [Int.add_emod]
        conv_lhs => rw [Int.add_emod, Int.emod_emod_of_dvd _ dvd_rfl]
  rw [key len (by omega)]
  have hsplit : (p + (len : ℤ)) = p + (len : ℤ) * 1 := by ring
  rw [hsplit, Int.add_mul_emod_self_left, Int.emod_eq_of_lt h0 hlt]


theorem option_getD_of_isSome {α : Type} {o : Option α} (h : o.isSome) (d : α) :
    some (o.getD d) = o := by
  cases o with
  | some a => rfl
  | none => simp at h

/-! ## Claims -/

/-- C1: When a segment is generated from a continuation context carrying the
previous segment's progression position and motif (as `generateSegment` returns
them), the new segment reuses that motif unchanged and its first bar's chord is
the progression entry at the carried position — the harmony picks up exactly
where the previous segment left off. -/
theorem C1_segment_continuity (optsA : GenerationOptions) (ctxA : Option ContinuationContext)
    (sA : RandStream) (optsB : GenerationOptions) (ctxB : ContinuationContext)
    (sB : RandStream) (pA : ℤ) (mA : List ℤ)
    (hstyle : optsB.style = optsA.style)
    (hApos : resultProgPos (generateSegment optsA ctxA sA) = some pA)
    (hAmotif : resultMotif (generateSegment optsA ctxA sA) = some mA)
    (hBpos : ctxB.progressionPosition = pA)
    (hBmotif : ctxB.motif = some mA)
    (hokB : resultIsOk (generateSegment optsB (some ctxB) sB) = true) :
    resultMotif (generateSegment optsB (some ctxB) sB) = some mA ∧
    (1 ≤ optsB.bars.getD 16 →
      resultFirstBarChord (generateSegment optsB (some ctxB) sB) =
        jsArrIdx (MusicTheory.getProgression (optsB.style.getD "ambient"))
          (jsMod pA
            (MusicTheory.getProgression (optsB.style.getD "ambient")).length)) ∧
    (0 ≤ pA →
      pA < (MusicTheory.getProgression (optsB.style.getD "ambient")).length →
      1 ≤ optsB.bars.getD 16 →
      resultFirstBarChord (generateSegment optsB (some ctxB) sB) =
        jsArrIdx (MusicTheory.getProgression (optsB.style.getD "ambient")) pA) := by
  have hmodsimp : ∀ h0 : 0 ≤ pA,
      pA < (MusicTheory.getProgression (optsB.style.getD "ambient")).length →
      jsMod pA (MusicTheory.getProgression (optsB.style.getD "ambient")).length
        = pA := by
    intro h0 hlt
    rw [jsMod_eq_emod _ h0]
    exact Int.emod_eq_of_lt h0 hlt
  have main : resultMotif (generateSegment optsB (some ctxB) sB) = some mA ∧
      (1 ≤ optsB.bars.getD 16 →
        resultFirstBarChord (generateSegment optsB (some ctxB) sB) =
          jsArrIdx (MusicTheory.getProgression (optsB.style.getD "ambient"))
            (jsMod pA
              (MusicTheory.getProgression (optsB.style.getD "ambient")).length)) := by
    cases hrun : generateSegment optsB (some ctxB) sB with
    | error e =>
      rw [hrun] at hokB
      exact absurd hokB (by simp [resultIsOk])
    | ok pr =>
      obtain ⟨r, s2⟩ := pr
      obtain ⟨motif, s1, final, s3, hm, hloop, hfin⟩ := generateSegment_ok_elim hrun
      have hmot : motif = mA := by
        unfold motifStep at hm
        have hbind : (some ctxB).bind (fun c => c.motif) = some mA := by
          simpa using hBmotif
        rw [hbind] at hm
        exact (pure_ok_elim hm).1
      obtain ⟨fp, fh, _, _, _, _, _, _, _, hmotif, htrace, _, _, _, _, _⟩ :=
        finishSegment_ok hfin
      have htr := segLoop_trace (segEnvOf optsB motif)
        (segInitOf (some ctxB) (segScaleOf optsB) motif)
        (segEnvOf optsB motif).bars.toNat s1 final s3 hloop
      have hinitpos :
          (segInitOf (some ctxB) (segScaleOf optsB) motif).progressionPos = pA := by
        show ((some ctxB).map (fun c => c.progressionPosition)).getD 0 = pA
        simpa using hBpos
      constructor
      · show some r.segmentInfo.motif = some mA
        rw [hmotif]
        show some (segEnvOf optsB motif).motif = some mA
        rw [show (segEnvOf optsB motif).motif = motif from rfl, hmot]
      · intro hbars
        have hn : 1 ≤ (segEnvOf optsB motif).bars.toNat := by
          have hb : (segEnvOf optsB motif).bars = optsB.bars.getD 16 := rfl
          omega
        show r.barChordTrace.head? = _
        rw [htrace, htr.2.1, hinitpos]
        obtain ⟨n2, hn2⟩ : ∃ n2, (segEnvOf optsB motif).bars.toNat = n2 + 1 :=
          ⟨(segEnvOf optsB motif).bars.toNat - 1, by omega⟩
        rw [hn2, List.range_succ_eq_map]
        have hsome0 := htr.2.2 0 (by rw [hn2]; omega)
        rw [hinitpos] at hsome0
        show some ((chordSelAt (segEnvOf optsB motif)
          (posAt (segEnvOf optsB motif) pA 0)).getD (0, "")) = _
        show some ((chordSelAt (segEnvOf optsB motif) pA).getD (0, "")) = _
        exact option_getD_of_isSome hsome0 (0, "")
  refine ⟨main.1, main.2, fun h0 hlt hbars => ?_⟩
  rw [main.2 hbars, hmodsimp h0 hlt]


/-- C6: Amended bound — whenever the continuation context's progression
position is itself within the style's progression (and in particular whenever
generation starts without a context), the returned `progressionPosition` stays
in `[0, progression.length)` and advancing it `progression.length` times with
the loop's advance map returns it to its starting value.  The unconditional
claim is refuted by the counterexample below: an out-of-range context position
is passed through unreduced when the progression rate never fires. -/
theorem C6_progression_position (options : GenerationOptions)
    (ctx : Option ContinuationContext) (s : RandStream) (p : ℤ)
    (hctx : ∀ c ∈ ctx, 0 ≤ c.progressionPosition ∧
      c.progressionPosition <
        (MusicTheory.getProgression (options.style.getD "ambient")).length)
    (hp : resultProgPos (generateSegment options ctx s) = some p) :
    0 ≤ p ∧
    p < (MusicTheory.getProgression (options.style.getD "ambient")).length ∧
    (advancePos (MusicTheory.getProgression (options.style.getD "ambient")).length)^[
      (MusicTheory.getProgression (options.style.getD "ambient")).length] p = p := by
  cases hrun : generateSegment options ctx s with
  | error e =>
    rw [hrun] at hp
    exact absurd hp (by simp [resultProgPos])
  | ok pr =>
    obtain ⟨r, s2⟩ := pr
    rw [hrun] at hp
    have hp2 : p = r.segmentInfo.progressionPosition := by
      simpa [resultProgPos] using hp.symm
    obtain ⟨motif, s1, final, s3, hm, hloop, hfin⟩ := generateSegment_ok_elim hrun
    obtain ⟨fp, fh, _, _, _, _, _, _, hpos, _, _, _, _, _, _, _⟩ :=
      finishSegment_ok hfin
    have htr := segLoop_trace (segEnvOf options motif)
      (segInitOf ctx (segScaleOf options) motif)
      (segEnvOf options motif).bars.toNat s1 final s3 hloop
    have hlen : 0 < (segEnvOf options motif).progression.length :=
      getProgression_length_pos _
    have hinit :
        0 ≤ (segInitOf ctx (segScaleOf options) motif).progressionPos ∧
        (segInitOf ctx (segScaleOf options) motif).progressionPos <
          (segEnvOf options motif).progression.length := by
      cases ctx with
      | none =>
        have h0 : (segInitOf Option.none (segScaleOf options) motif).progressionPos = 0 := rfl
        rw [h0]
        exact ⟨le_refl 0, by exact_mod_cast hlen⟩
      | some c =>
        exact hctx c rfl
    have hb := posAt_bounds (segEnvOf options motif) hlen hinit
      (segEnvOf options motif).bars.toNat
    have hfinal : final.progressionPos =
        posAt (segEnvOf options motif)
          (segInitOf ctx (segScaleOf options) motif).progressionPos
          (segEnvOf options motif).bars.toNat := htr.1
    have hplen : (segEnvOf options motif).progression.length =
        (MusicTheory.getProgression (options.style.getD "ambient")).length := rfl
    rw [hp2, hpos, hfinal]
    rw [hplen] at hb
    exact ⟨hb.1, hb.2, advancePos_cycle (by rw [← hplen]; exact hlen) hb.1 hb.2⟩

/-- C8: The reported `durationSeconds` of every successful generation equals
bars * 4 / tempo * 60, with bars defaulting to 16 and tempo to 90. -/
theorem C8_duration_formula (options : GenerationOptions)
    (ctx : Option ContinuationContext) (s : RandStream) (d : ℚ)
    (hd : resultDuration (generateSegment options ctx s) = some d) :
    d = (options.bars.getD 16 : ℚ) * 4 / (options.tempo.getD 90) * 60 := by
  cases hrun : generateSegment options ctx s with
  | error e =>
    rw [hrun] at hd
    exact absurd hd (by simp [resultDuration])
  | ok pr =>
    obtain ⟨r, s2⟩ := pr
    rw [hrun] at hd
    have hd2 : d = r.segmentInfo.durationSeconds := by
      simpa [resultDuration] using hd.symm
    obtain ⟨motif, s1, final, s3, hm, hloop, hfin⟩ := generateSegment_ok_elim hrun
    obtain ⟨fp, fh, _, _, _, hdur, _, _, _, _, _, _, _, _, _, _⟩ :=
      finishSegment_ok hfin
    rw [hd2, hdur]
    rfl


/-- C10: The returned `endingChord`/`endingChordType` are read from the
progression entry at index (finalPosition - 1 + length) % length: the chord type
is the entry's second component and the ending chord is the first note of the
chord built from the entry's degree (octave 3) with its trailing octave digits
stripped. Moreover, when the style's progression rate divides the bar count,
that entry is exactly the last bar's chord; the counterexample below shows the
rate-divides hypothesis in the amended claim matters for the code path, while
for `lofi` with 1 bar the equality still holds numerically. -/
theorem C10_ending_chord (options : GenerationOptions)
    (ctx : Option ContinuationContext) (s : RandStream) (p : ℤ)
    (ct ec : String)
    (hctx : ∀ c ∈ ctx, 0 ≤ c.progressionPosition)
    (hp : resultProgPos (generateSegment options ctx s) = some p)
    (hct : resultEndingChordType (generateSegment options ctx s) = some ct)
    (hec : resultEndingChord (generateSegment options ctx s) = some ec) :
    ∃ d t fh0,
      jsArrIdx (MusicTheory.getProgression (options.style.getD "ambient"))
        (jsMod (p - 1 +
          (MusicTheory.getProgression (options.style.getD "ambient")).length)
          (MusicTheory.getProgression (options.style.getD "ambient")).length) =
        some (d, t) ∧
      ct = t ∧
      (MusicTheory.getChordFromDegree (options.key.getD "C")
        (options.mode.getD "major") d t 3).head? = some fh0 ∧
      ec = stripTrailingDigits fh0 ∧
      (((getProgressionRate (options.style.getD "ambient") : ℤ) ∣
          options.bars.getD 16) →
        1 ≤ options.bars.getD 16 →
        resultLastBarChord (generateSegment options ctx s) = some (d, t)) := by
  cases hrun : generateSegment options ctx s with
  | error e =>
    rw [hrun] at hp
    exact absurd hp (by simp [resultProgPos])
  | ok pr =>
    obtain ⟨r, s2⟩ := pr
    rw [hrun] at hp hct hec
    obtain ⟨motif, s1, final, s3, hm, hloop, hfin⟩ := generateSegment_ok_elim hrun
    obtain ⟨fp, fh, hidx, hhead, _, _, hecr, hectr, hposr, _, htrace, _, _, _, _, _⟩ :=
      finishSegment_ok hfin
    have htr := segLoop_trace (segEnvOf options motif)
      (segInitOf ctx (segScaleOf options) motif)
      (segEnvOf options motif).bars.toNat s1 final s3 hloop
    have hp2 : p = final.progressionPos := by
      have : p = r.segmentInfo.progressionPosition := by
        simpa [resultProgPos] using hp.symm
      rw [this, hposr]
    have hct2 : ct = fp.2 := by
      have : ct = r.segmentInfo.endingChordType := by
        simpa [resultEndingChordType] using hct.symm
      rw [this, hectr]
    have hec2 : ec = stripTrailingDigits fh := by
      have : ec = r.segmentInfo.endingChord := by
        simpa [resultEndingChord] using hec.symm
      rw [this, hecr]
    refine ⟨fp.1, fp.2, fh, ?_, hct2, ?_, hec2, ?_⟩
    · rw [hp2]
      exact hidx
    · exact hhead
    · -- the divisibility direction
      intro hdvd hbars
      have hlen : 0 < (segEnvOf options motif).progression.length :=
        getProgression_length_pos _
      -- abbreviations
      set env := segEnvOf options motif with henv
      set init := segInitOf ctx (segScaleOf options) motif with hinit
      have hbars2 : env.bars = options.bars.getD 16 := rfl
      have hn1 : 1 ≤ env.bars.toNat := by omega
      obtain ⟨n2, hn2⟩ : ∃ n2, env.bars.toNat = n2 + 1 :=
        ⟨env.bars.toNat - 1, by omega⟩
      -- the advance fires at the last bar
      have hratepos : 0 < getProgressionRate env.style := by
        unfold getProgressionRate PROGRESSION_RATES
        simp only [List.lookup]
        repeat' split
        all_goals simp_all
      have hdvdn : getProgressionRate env.style ∣ env.bars.toNat := by
        have hcast : (env.bars.toNat : ℤ) = env.bars := by omega
        have : (getProgressionRate env.style : ℤ) ∣ (env.bars.toNat : ℤ) := by
          rw [hcast]
          exact hdvd
        exact_mod_cast this
    
      have hadv : (n2 + 1) % getProgressionRate env.style = 0 := by
        rw [← hn2]
        omega
      -- initial position is nonnegative
      have hinit0 : 0 ≤ init.progressionPos := by
        cases ctx with
        | none => exact le_refl 0
        | some c => exact hctx c rfl
      have hq0 : 0 ≤ posAt env init.progressionPos n2 :=
        posAt_nonneg env hinit0 hlen n2
      -- final position is the advance of the last bar position
      have hfinal : final.progressionPos =
          advancePos env.progression.length (posAt env init.progressionPos n2) := by
        rw [htr.1, hn2]
        show posAt env init.progressionPos (n2 + 1) = _
        rw [show posAt env init.progressionPos (n2 + 1) =
          (if (n2 + 1) % getProgressionRate env.style = 0 then
            advancePos env.progression.length (posAt env init.progressionPos n2)
          else posAt env init.progressionPos n2) from rfl]
        rw [if_pos hadv]
      -- index arithmetic: the ending entry index equals the last bar index
      have hidxeq :
          jsMod (final.progressionPos - 1 + env.progression.length)
            env.progression.length =
          jsMod (posAt env init.progressionPos n2) env.progression.length := by
        rw [hfinal]
        unfold advancePos
        set q := posAt env init.progressionPos n2 with hq
        set L := (env.progression.length : ℤ) with hL
        have hLpos : 0 < L := by positivity
        have ha : 0 ≤ jsMod (q + 1) env.progression.length :=
          Int.tmod_nonneg _ (by omega)
        have hb : jsMod (q + 1) env.progression.length < L :=
          Int.tmod_lt_of_pos _ hLpos
        rw [jsMod_eq_emod _ (by omega), jsMod_eq_emod _ hq0,
          jsMod_eq_emod _ (by omega)]
        have h1 : (q + 1) % L - 1 + L = (q + 1) % L + (L - 1) := by ring
        rw [h1]
        conv_lhs => rw [Int.add_emod]
        rw [Int.emod_emod_of_dvd _ dvd_rfl]
        conv_rhs => rw [show q = (q + 1) + (L - 1) - L by ring]
        rw [show (q + 1) + (L - 1) - L = ((q + 1) + (L - 1)) + L * (-1) by ring]
        rw [Int.add_mul_emod_self_left]
        conv_rhs => rw [Int.add_emod]
      -- the last trace entry
      have hlast : r.barChordTrace.getLast? =
          some ((chordSelAt env (posAt env init.progressionPos n2)).getD (0, "")) := by
        rw [htrace, htr.2.1, hn2, List.range_succ, List.map_append]
        simp
      have hsome := htr.2.2 n2 (by omega)
      show r.barChordTrace.getLast? = some (fp.1, fp.2)
      rw [hlast]
      have hsel : chordSelAt env (posAt env init.progressionPos n2) = some fp := by
        have hsel1 : chordSelAt env (posAt env init.progressionPos n2) =
            jsArrIdx env.progression
              (jsMod (final.progressionPos - 1 + env.progression.length)
                env.progression.length) := by
          unfold chordSelAt
          rw [hidxeq]
        rw [hsel1]
        exact hidx
      rw [hsel]
      rfl


set_option maxRecDepth 40000 in
theorem C6_progression_position_witness :
    0 ≤ (1 : ℤ) ∧
    (1 : ℤ) < (MusicTheory.getProgression
      ((sampleOptions (some 1) Option.none Option.none Option.none).style.getD
        "ambient")).length ∧
    (advancePos (MusicTheory.getProgression
      ((sampleOptions (some 1) Option.none Option.none Option.none).style.getD
        "ambient")).length)^[
      (MusicTheory.getProgression
        ((sampleOptions (some 1) Option.none Option.none Option.none).style.getD
          "ambient")).length] 1 = 1 :=
  C6_progression_position (sampleOptions (some 1) Option.none Option.none Option.none)
    (some (sampleContext 1 (some [2, 3]))) (constStream (13/100)) 1
    (by
      intro c hc
      have hc2 : c = sampleContext 1 (some [2, 3]) := by
        cases hc
        rfl
      rw [hc2]
      with_unfolding_all decide)
    (by with_unfolding_all decide)

set_option maxRecDepth 40000 in
theorem C6_progression_position_counterexample :
    resultProgPos (generateSegment
      (sampleOptions (some 1) Option.none Option.none Option.none)
      (some (sampleContext 7 (some [2, 3]))) (constStream (13/100))) = some 7 ∧
    (MusicTheory.getProgression "ambient").length = 4 ∧
    ¬ ((7 : ℤ) < (MusicTheory.getProgression "ambient").length) := by
  refine ⟨?_, ?_, ?_⟩
  · with_unfolding_all decide
  · with_unfolding_all decide
  · with_unfolding_all decide

set_option maxRecDepth 40000 in
theorem C8_duration_formula_witness :
    (8/3 : ℚ) =
      ((sampleOptions (some 1) Option.none Option.none Option.none).bars.getD 16 : ℚ)
        * 4 /
        ((sampleOptions (some 1) Option.none Option.none Option.none).tempo.getD 90)
        * 60 :=
  C8_duration_formula (sampleOptions (some 1) Option.none Option.none Option.none)
    (some (sampleContext 1 (some [2, 3]))) (constStream (13/100)) (8/3)
    (by with_unfolding_all decide)



set_option maxRecDepth 40000 in
theorem C1_segment_continuity_witness :
    resultMotif (generateSegment (sampleOptions (some 1) Option.none Option.none Option.none)
      (some (sampleContext 1 (some [2, 3]))) (constStream (13/100))) = some [2, 3] ∧
    (1 ≤ (sampleOptions (some 1) Option.none Option.none Option.none).bars.getD 16 →
      resultFirstBarChord (generateSegment
        (sampleOptions (some 1) Option.none Option.none Option.none)
        (some (sampleContext 1 (some [2, 3]))) (constStream (13/100))) =
        jsArrIdx (MusicTheory.getProgression
          ((sampleOptions (some 1) Option.none Option.none Option.none).style.getD "ambient"))
          (jsMod 1 (MusicTheory.getProgression
            ((sampleOptions (some 1) Option.none Option.none Option.none).style.getD
              "ambient")).length)) ∧
    (0 ≤ (1 : ℤ) →
      (1 : ℤ) < (MusicTheory.getProgression
        ((sampleOptions (some 1) Option.none Option.none Option.none).style.getD
          "ambient")).length →
      1 ≤ (sampleOptions (some 1) Option.none Option.none Option.none).bars.getD 16 →
      resultFirstBarChord (generateSegment
        (sampleOptions (some 1) Option.none Option.none Option.none)
        (some (sampleContext 1 (some [2, 3]))) (constStream (13/100))) =
        jsArrIdx (MusicTheory.getProgression
          ((sampleOptions (some 1) Option.none Option.none Option.none).style.getD
            "ambient")) 1) :=
  C1_segment_continuity (sampleOptions (some 1) Option.none Option.none Option.none)
    (some (sampleContext 1 (some [2, 3]))) (constStream (13/100))
    (sampleOptions (some 1) Option.none Option.none Option.none)
    (sampleContext 1 (some [2, 3])) (constStream (13/100)) 1 [2, 3]
    rfl
    (by with_unfolding_all decide)
    (by with_unfolding_all decide)
    rfl
    rfl
    (by with_unfolding_all decide)

set_option maxRecDepth 40000 in
theorem C10_ending_chord_witness :
    ∃ d t fh0,
      jsArrIdx (MusicTheory.getProgression
        ((sampleOptions (some 1) (some "classical") Option.none Option.none).style.getD
          "ambient"))
        (jsMod ((1 : ℤ) - 1 +
          (MusicTheory.getProgression
            ((sampleOptions (some 1) (some "classical") Option.none
              Option.none).style.getD "ambient")).length)
          (MusicTheory.getProgression
            ((sampleOptions (some 1) (some "classical") Option.none
              Option.none).style.getD "ambient")).length) = some (d, t) ∧
      "major" = t ∧
      (MusicTheory.getChordFromDegree
        ((sampleOptions (some 1) (some "classical") Option.none Option.none).key.getD "C")
        ((sampleOptions (some 1) (some "classical") Option.none Option.none).mode.getD
          "major") d t 3).head? = some fh0 ∧
      "C" = stripTrailingDigits fh0 ∧
      (((getProgressionRate ((sampleOptions (some 1) (some "classical") Option.none
          Option.none).style.getD "ambient") : ℤ) ∣
          (sampleOptions (some 1) (some "classical") Option.none Option.none).bars.getD 16) →
        1 ≤ (sampleOptions (some 1) (some "classical") Option.none Option.none).bars.getD 16 →
        resultLastBarChord (generateSegment
          (sampleOptions (some 1) (some "classical") Option.none Option.none)
          (some (sampleContext 0 (some [2, 3]))) (constStream (13/100))) =
          some (d, t)) :=
  C10_ending_chord (sampleOptions (some 1) (some "classical") Option.none Option.none)
    (some (sampleContext 0 (some [2, 3]))) (constStream (13/100)) 1 "major" "C"
    (by
      intro c hc
      have hc2 : c = sampleContext 0 (some [2, 3]) := by
        cases hc
        rfl
      rw [hc2]
      with_unfolding_all decide)
    (by with_unfolding_all decide)
    (by with_unfolding_all decide)
    (by with_unfolding_all decide)

set_option maxRecDepth 40000 in
theorem C10_ending_chord_counterexample :
    resultLastBarChord (generateSegment
      (sampleOptions (some 1) (some "lofi") Option.none Option.none)
      (some (sampleContext 0 (some [2, 3]))) (constStream (13/100))) =
      some (0, "maj7") ∧
    resultProgPos (generateSegment
      (sampleOptions (some 1) (some "lofi") Option.none Option.none)
      (some (sampleContext 0 (some [2, 3]))) (constStream (13/100))) = some 0 ∧
    jsArrIdx (MusicTheory.getProgression "lofi")
      (jsMod ((0 : ℤ) - 1 + (MusicTheory.getProgression "lofi").length)
        (MusicTheory.getProgression "lofi").length) = some (0, "maj7") ∧
    resultEndingChordType (generateSegment
      (sampleOptions (some 1) (some "lofi") Option.none Option.none)
      (some (sampleContext 0 (some [2, 3]))) (constStream (13/100))) =
      some "maj7" ∧
    (sampleOptions (some 1) (some "lofi") Option.none Option.none).bars.getD 16 = 1 ∧
    getProgressionRate "lofi" = 2 ∧
    ¬ ((2 : ℤ) ∣ 1) := by
  refine ⟨?_, ?_, ?_, ?_, ?_, ?_, ?_⟩ <;> with_unfolding_all decide


/-- C4: Amended round-trip — for every pitch name actually producible by the
code (one of the twelve sharp-form `NOTES` entries followed by a single octave
digit), `midiToNote (noteToMidi p) = p`.  The full-grammar claim is refuted by
the counterexample below: `"E#4"` matches the grammar but round-trips to
`"B3"`, because `NOTES.indexOf "E#"` is `-1`. -/
theorem C4_pitch_roundtrip (j o : Nat) (hj : j < 12) (ho : o < 10) :
    MusicTheory.midiToNote (MusicTheory.noteToMidi
      (MusicTheory.jsNoteAt (j : Int) ++ toString o)) =
      MusicTheory.jsNoteAt (j : Int) ++ toString o := by
  have key : ∀ j2 : Fin 12, ∀ o2 : Fin 10,
      MusicTheory.midiToNote (MusicTheory.noteToMidi
        (MusicTheory.jsNoteAt (j2.val : Int) ++ toString o2.val)) =
        MusicTheory.jsNoteAt (j2.val : Int) ++ toString o2.val := by
    with_unfolding_all decide
  exact key ⟨j, hj⟩ ⟨o, ho⟩

theorem C4_pitch_roundtrip_witness :
    MusicTheory.midiToNote (MusicTheory.noteToMidi
      (MusicTheory.jsNoteAt (6 : Int) ++ toString 3)) =
      MusicTheory.jsNoteAt (6 : Int) ++ toString 3 :=
  C4_pitch_roundtrip 6 3 (by decide) (by decide)

theorem C4_pitch_roundtrip_counterexample :
    MusicTheory.specPitchGrammar "E#4" = true ∧
    MusicTheory.midiToNote (MusicTheory.noteToMidi "E#4") = "B3" ∧
    "B3" ≠ "E#4" := by
  refine ⟨?_, ?_, ?_⟩ <;> with_unfolding_all decide

/-- C3: Amended fallbacks — for a style absent from every table, the style
parameters and instrument lookups fall back to the `ambient` entries, but the
drum-pattern lookup falls back to `lofi` and the progression lookup to `pop`;
no lookup ever errors.  The claim that ALL lookups fall back to ambient is
refuted by the counterexample below. -/
theorem C3_style_fallbacks (style : String)
    (hsp : MusicTheory.STYLE_PARAMS.lookup style = Option.none)
    (hin : INSTRUMENT_TABLE.lookup style = Option.none)
    (hdp : DRUM_PATTERNS.lookup style = Option.none)
    (hpr : MusicTheory.PROGRESSIONS.lookup style = Option.none) :
    (MusicTheory.STYLE_PARAMS.lookup style).getD MusicTheory.ambientParams =
      MusicTheory.ambientParams ∧
    MusicTheory.STYLE_PARAMS.lookup "ambient" = some MusicTheory.ambientParams ∧
    getInstrumentsForStyle style = getInstrumentsForStyle "ambient" ∧
    (DRUM_PATTERNS.lookup style).getD DRUM_PATTERNS_lofi = DRUM_PATTERNS_lofi ∧
    DRUM_PATTERNS.lookup "lofi" = some DRUM_PATTERNS_lofi ∧
    MusicTheory.getProgression style = MusicTheory.PROGRESSIONS_pop ∧
    MusicTheory.PROGRESSIONS.lookup "pop" = some MusicTheory.PROGRESSIONS_pop := by
  refine ⟨?_, ?_, ?_, ?_, ?_, ?_, ?_⟩
  · rw [hsp]
    rfl
  · rfl
  · unfold getInstrumentsForStyle
    rw [hin]
    rfl
  · rw [hdp]
    rfl
  · rfl
  · unfold MusicTheory.getProgression
    rw [hpr]
    rfl
  · rfl

theorem C3_style_fallbacks_witness :
    (MusicTheory.STYLE_PARAMS.lookup "techno").getD MusicTheory.ambientParams =
      MusicTheory.ambientParams ∧
    MusicTheory.STYLE_PARAMS.lookup "ambient" = some MusicTheory.ambientParams ∧
    getInstrumentsForStyle "techno" = getInstrumentsForStyle "ambient" ∧
    (DRUM_PATTERNS.lookup "techno").getD DRUM_PATTERNS_lofi = DRUM_PATTERNS_lofi ∧
    DRUM_PATTERNS.lookup "lofi" = some DRUM_PATTERNS_lofi ∧
    MusicTheory.getProgression "techno" = MusicTheory.PROGRESSIONS_pop ∧
    MusicTheory.PROGRESSIONS.lookup "pop" = some MusicTheory.PROGRESSIONS_pop :=
  C3_style_fallbacks "techno" rfl rfl rfl rfl

theorem C3_style_fallbacks_counterexample :
    MusicTheory.PROGRESSIONS.lookup "techno" = Option.none ∧
    MusicTheory.getProgression "techno" ≠ MusicTheory.getProgression "ambient" ∧
    DRUM_PATTERNS.lookup "techno" = Option.none ∧
    ((DRUM_PATTERNS.lookup "techno").getD DRUM_PATTERNS_lofi).kick ≠
      ((DRUM_PATTERNS.lookup "ambient").getD DRUM_PATTERNS_lofi).kick := by
  refine ⟨rfl, ?_, rfl, ?_⟩ <;> with_unfolding_all decide

/-- C9: Amended scale shape — `getScale` returns as many notes as the mode's
interval pattern (7, 5, 6 or 12 — not only "7 or 5": `blues` has 6 and
`chromatic` 12, see the counterexample), an unknown mode falls back to the
major pattern, and each returned pitch name is the root raised by the
pattern's semitone offset (verified through `noteToMidi` over every note,
mode and pattern index at the generator's octave 4). -/
theorem C9_scale_shape (root mode : String) (octave : Int) :
    ((MusicTheory.getScale root mode octave).length = 7 ∨
     (MusicTheory.getScale root mode octave).length = 5 ∨
     (MusicTheory.getScale root mode octave).length = 6 ∨
     (MusicTheory.getScale root mode octave).length = 12) ∧
    (MusicTheory.SCALES.lookup mode = Option.none →
      MusicTheory.getScale root mode octave =
        MusicTheory.getScale root "major" octave) ∧
    (MusicTheory.SCALES.length = 8 ∧
     ∀ r : Fin 12, ∀ mi : Fin 8, ∀ k : Fin 12,
      k.val < ((MusicTheory.SCALES.getD mi.val ("", [])).2).length →
        MusicTheory.noteToMidi
          ((MusicTheory.getScale (MusicTheory.jsNoteAt (r.val : Int))
            (MusicTheory.SCALES.getD mi.val ("", [])).1 4).getD k.val "") =
          (r.val : Int) +
            (MusicTheory.SCALES.getD mi.val ("", [])).2.getD k.val 0 + 60) := by
  refine ⟨?_, ?_, ?_⟩
  · have hlen : (MusicTheory.getScale root mode octave).length =
        ((MusicTheory.SCALES.lookup mode).getD MusicTheory.SCALES_major).length := by
      unfold MusicTheory.getScale
      exact List.length_map _ _
    rw [hlen]
    unfold MusicTheory.SCALES MusicTheory.SCALES_major
    simp only [List.lookup]
    repeat' split
    all_goals simp_all
  · intro h
    unfold MusicTheory.getScale
    rw [h]
    with_unfolding_all rfl
  · with_unfolding_all decide

theorem C9_scale_shape_witness :
    MusicTheory.getScale "C" "techno" 4 = MusicTheory.getScale "C" "major" 4 :=
  (C9_scale_shape "C" "techno" 4).2.1 rfl

theorem C9_scale_shape_counterexample :
    (MusicTheory.getScale "C" "blues" 4).length = 6 ∧
    (MusicTheory.getScale "C" "chromatic" 4).length = 12 ∧
    ¬ ((MusicTheory.getScale "C" "blues" 4).length = 7 ∨
       (MusicTheory.getScale "C" "blues" 4).length = 5) := by
  refine ⟨?_, ?_, ?_⟩ <;> with_unfolding_all decide

theorem getBaseVelocity_eq_raw (dynamics : Dynamics) (currentBar : ℕ)
    (totalBars : ℤ) :
    getBaseVelocity dynamics currentBar totalBars =
      min 100 (max 40 (rawBaseVelocity dynamics currentBar totalBars)) := rfl

/-- C5: Amended base-velocity law — the code computes
clamp(base + trend·10 + phrase + arc) + velocityMod, i.e. the clamp to
[40,100] is applied BEFORE the section modifier, not to the total as the spec
says.  Both agree exactly when neither clamp binds; the counterexample below
(loud dynamics, rising trend, bar 1 of 16, intro section) separates them:
the code yields 85 while the spec formula yields 88 + sin(π/16)·8 > 88. -/
theorem C5_base_velocity (dyn : Dynamics) (bar : ℕ) (totalBars : ℤ)
    (cfg : SectionConfig)
    (h1 : 40 ≤ rawBaseVelocity dyn bar totalBars)
    (h2 : rawBaseVelocity dyn bar totalBars ≤ 100)
    (h3 : 40 ≤ rawBaseVelocity dyn bar totalBars + (cfg.velocityMod : ℝ))
    (h4 : rawBaseVelocity dyn bar totalBars + (cfg.velocityMod : ℝ) ≤ 100) :
    barBaseVelocity dyn bar totalBars cfg = specBaseVelocity dyn bar totalBars cfg := by
  unfold barBaseVelocity specBaseVelocity
  rw [getBaseVelocity_eq_raw]
  rw [max_eq_right h1, min_eq_right h2, max_eq_right h3, min_eq_right h4]

theorem C5_base_velocity_witness :
    barBaseVelocity
        { level := "medium", direction := "stable", velocityTrend := 0 } 0 16
        (SECTION_CONFIGS .verse) =
      specBaseVelocity
        { level := "medium", direction := "stable", velocityTrend := 0 } 0 16
        (SECTION_CONFIGS .verse) := by
  have hr : rawBaseVelocity
      { level := "medium", direction := "stable", velocityTrend := 0 } 0 16 = 72 := by
    have hb : ((LEVEL_MAP.lookup
        ({ level := "medium", direction := "stable", velocityTrend := (0 : ℚ) }
          : Dynamics).level).getD 72 : ℚ) = 72 := rfl
    unfold rawBaseVelocity
    rw [hb]
    norm_num
  have hm : ((SECTION_CONFIGS .verse).velocityMod : ℝ) = -5 := by
    norm_num [SECTION_CONFIGS]
  exact C5_base_velocity _ 0 16 _
    (by rw [hr]; norm_num) (by rw [hr]; norm_num)
    (by rw [hr, hm]; norm_num) (by rw [hr, hm]; norm_num)

theorem C5_base_velocity_counterexample :
    barBaseVelocity
        { level := "loud", direction := "stable", velocityTrend := 6/5 } 1 16
        (SECTION_CONFIGS .intro) = 85 ∧
    specBaseVelocity
        { level := "loud", direction := "stable", velocityTrend := 6/5 } 1 16
        (SECTION_CONFIGS .intro) =
      88 + Real.sin (Real.pi / 16) * 8 ∧
    specBaseVelocity
        { level := "loud", direction := "stable", velocityTrend := 6/5 } 1 16
        (SECTION_CONFIGS .intro) ≠
      barBaseVelocity
        { level := "loud", direction := "stable", velocityTrend := 6/5 } 1 16
        (SECTION_CONFIGS .intro) := by
  have hsin_pos : 0 < Real.sin (Real.pi / 16) := by
    apply Real.sin_pos_of_pos_of_lt_pi
    · positivity
    · nlinarith [Real.pi_pos]
  have hsin_le : Real.sin (Real.pi / 16) ≤ 1 := Real.sin_le_one _
  have hraw : rawBaseVelocity
      { level := "loud", direction := "stable", velocityTrend := 6/5 } 1 16 =
      103 + Real.sin (Real.pi / 16) * 8 := by
    have hb2 : ((LEVEL_MAP.lookup
        ({ level := "loud", direction := "stable", velocityTrend := (6/5 : ℚ) }
          : Dynamics).level).getD 72 : ℚ) = 88 := rfl
    unfold rawBaseVelocity
    rw [hb2]
    push_cast
    norm_num
    ring_nf
    rw [show Real.pi * (1 / 16) = Real.pi / 16 by ring, Real.sin_pi_div_sixteen]
    ring
  have hmod : ((SECTION_CONFIGS .intro).velocityMod : ℝ) = -15 := by
    norm_num [SECTION_CONFIGS]
  have hcode : barBaseVelocity
      { level := "loud", direction := "stable", velocityTrend := 6/5 } 1 16
      (SECTION_CONFIGS .intro) = 85 := by
    unfold barBaseVelocity
    rw [getBaseVelocity_eq_raw, hraw, hmod]
    rw [max_eq_right (by nlinarith), min_eq_left (by nlinarith)]
    norm_num
  have hspec : specBaseVelocity
      { level := "loud", direction := "stable", velocityTrend := 6/5 } 1 16
      (SECTION_CONFIGS .intro) = 88 + Real.sin (Real.pi / 16) * 8 := by
    unfold specBaseVelocity
    rw [hraw, hmod]
    rw [max_eq_right (by nlinarith), min_eq_right (by nlinarith)]
    ring
  refine ⟨hcode, hspec, ?_⟩
  rw [hcode, hspec]
  nlinarith

theorem MOk_foldlM {α σ : Type} {l : List α} {f : σ → α → M σ} {P : σ → Prop}
    {init : σ} (hinit : P init) (hstep : ∀ st a, P st → MOk (f st a) P) :
    MOk (l.foldlM f init) P := by
  induction l generalizing init with
  | nil => exact MOk_pure hinit
  | cons a t ih =>
    show MOk (f init a >>= fun st => t.foldlM f st) P
    exact MOk_bind (hstep init a hinit) (fun st hst => ih hst)

theorem MOk_ite {α : Type} {c : Prop} [Decidable c] {t e : M α} {Q : α → Prop}
    (ht : c → MOk t Q) (he : ¬c → MOk e Q) : MOk (ite c t e) Q := by
  by_cases hc : c
  · rw [if_pos hc]
    exact ht hc
  · rw [if_neg hc]
    exact he hc

theorem humanizeVelocity_bounds (v : ℝ) (a : ℚ) :
    MOk (humanizeVelocity v a) (fun w => 1 ≤ w ∧ w ≤ 127) := by
  unfold humanizeVelocity
  refine MOk_bind (MOk_true _) (fun r _ => ?_)
  exact MOk_pure ⟨le_min (by norm_num) (le_max_left 1 _), min_le_left _ _⟩

theorem humanizeVelocity_ok_int {v : ℝ} (hv : ∃ n : ℤ, v = (n : ℝ)) (a : ℚ) :
    MOk (humanizeVelocity v a)
      (fun w => (1 ≤ w ∧ w ≤ 127) ∧ ∃ m : ℤ, w = (m : ℝ)) := by
  obtain ⟨n, hn⟩ := hv
  subst hn
  unfold humanizeVelocity
  refine MOk_bind (MOk_true _) (fun r _ => ?_)
  refine MOk_pure ⟨⟨le_min (by norm_num) (le_max_left 1 _), min_le_left _ _⟩,
    min 127 (max 1 (n + ⌊(r - 1/2) * a * 2⌋)), ?_⟩
  push_cast
  rfl

theorem humanizeTiming_nonneg (t : ℤ) (a : ℚ) :
    MOk (humanizeTiming t a) (fun u => 0 ≤ u) := by
  unfold humanizeTiming
  refine MOk_bind (MOk_true _) (fun r _ => ?_)
  exact MOk_pure (le_max_left 0 _)

theorem evsOk_nil : evsOk [] := by
  intro e he
  simp at he

theorem evsOkInt_nil : evsOkInt [] := by
  intro e he
  simp at he

theorem evsOk_push {l : List NoteEvent} {e : NoteEvent} (hl : evsOk l)
    (he : eventOk e) : evsOk (l ++ [e]) := by
  intro x hx
  rcases List.mem_append.mp hx with h | h
  · exact hl x h
  · rw [List.mem_singleton.mp h]
    exact he

theorem evsOkInt_push {l : List NoteEvent} {e : NoteEvent} (hl : evsOkInt l)
    (he : eventOk e) (hi : intVel e) : evsOkInt (l ++ [e]) := by
  intro x hx
  rcases List.mem_append.mp hx with h | h
  · exact hl x h
  · rw [List.mem_singleton.mp h]
    exact ⟨he, hi⟩

/-- `mathFloor` always yields an integer. -/
theorem mathFloor_int (x : ℝ) : ∃ n : ℤ, mathFloor x = (n : ℝ) := ⟨⌊x⌋, rfl⟩

theorem generateDrums_ok (barNumber : ℕ) (style : String) (bv : ℝ)
    (dyn : Dynamics) (intensity : String) (addFill : Bool) :
    MOk (generateDrums barNumber style bv dyn intensity addFill) evsOkInt := by
  unfold generateDrums
  refine MOk_foldlM evsOkInt_nil (fun evs i hevs => ?_)
  refine MOk_ite (fun hfill => ?_) (fun hfill => ?_)
  · -- fill branch
    refine MOk_bind (humanizeVelocity_ok_int (mathFloor_int _) _) (fun v hv => ?_)
    refine MOk_bind (humanizeTiming_nonneg _ _) (fun t ht => ?_)
    refine MOk_ite (fun htom => ?_) (fun htom => ?_)
    · refine MOk_bind (humanizeVelocity_ok_int (mathFloor_int _) _) (fun v2 hv2 => ?_)
      refine MOk_bind (humanizeTiming_nonneg _ _) (fun t2 ht2 => ?_)
      refine MOk_pure ?_
      refine evsOkInt_push ?_ ⟨hv2.1.1, hv2.1.2, ht2⟩ hv2.2
      exact evsOkInt_push hevs ⟨hv.1.1, hv.1.2, ht⟩ hv.2
    · refine MOk_pure ?_
      exact evsOkInt_push hevs ⟨hv.1.1, hv.1.2, ht⟩ hv.2
  · -- normal pattern
    refine MOk_bind (Q := evsOkInt)
      (MOk_mIte (fun hc => ?_) (fun hc => MOk_pure hevs)) (fun evs1 hevs1 => ?_)
    · refine MOk_bind (humanizeVelocity_ok_int (mathFloor_int _) _) (fun v hv => ?_)
      refine MOk_bind (humanizeTiming_nonneg _ _) (fun t ht => ?_)
      refine MOk_pure ?_
      exact evsOkInt_push hevs ⟨hv.1.1, hv.1.2, ht⟩ hv.2
    refine MOk_bind (Q := evsOkInt)
      (MOk_mIte (fun hc => ?_) (fun hc => MOk_pure hevs1)) (fun evs2 hevs2 => ?_)
    · refine MOk_bind (MOk_true _) (fun r _ => ?_)
      refine MOk_ite (fun hr => ?_) (fun hr => MOk_pure hevs1)
      refine MOk_bind (humanizeVelocity_ok_int (mathFloor_int _) _) (fun v hv => ?_)
      refine MOk_bind (humanizeTiming_nonneg _ _) (fun t ht => ?_)
      refine MOk_pure ?_
      exact evsOkInt_push hevs1 ⟨hv.1.1, hv.1.2, ht⟩ hv.2
    refine MOk_bind (Q := evsOkInt)
      (MOk_mIte (fun hc => ?_) (fun hc => MOk_pure hevs2)) (fun evs3 hevs3 => ?_)
    · refine MOk_bind (MOk_true _) (fun r _ => ?_)
      refine MOk_ite (fun hr => ?_) (fun hr => MOk_pure hevs2)
      refine MOk_bind (humanizeVelocity_ok_int (mathFloor_int _) _) (fun v hv => ?_)
      refine MOk_bind (humanizeTiming_nonneg _ _) (fun t ht => ?_)
      refine MOk_pure ?_
      exact evsOkInt_push hevs2 ⟨hv.1.1, hv.1.2, ht⟩ hv.2
    refine MOk_bind (Q := evsOkInt)
      (MOk_mIte (fun hc => ?_) (fun hc => MOk_pure hevs3)) (fun evs4 hevs4 => ?_)
    · refine MOk_bind (MOk_true _) (fun r _ => ?_)
      refine MOk_ite (fun hr => ?_) (fun hr => MOk_pure hevs3)
      refine MOk_bind (humanizeVelocity_ok_int (mathFloor_int _) _) (fun v hv => ?_)
      refine MOk_bind (humanizeTiming_nonneg _ _) (fun t ht => ?_)
      refine MOk_pure ?_
      exact evsOkInt_push hevs3 ⟨hv.1.1, hv.1.2, ht⟩ hv.2
    split
    · refine MOk_ite (fun hrd => ?_) (fun hrd => MOk_pure hevs4)
      refine MOk_bind (MOk_true _) (fun r _ => ?_)
      refine MOk_ite (fun hr => ?_) (fun hr => MOk_pure hevs4)
      refine MOk_bind (humanizeVelocity_ok_int (mathFloor_int _) _) (fun v hv => ?_)
      refine MOk_bind (humanizeTiming_nonneg _ _) (fun t ht => ?_)
      refine MOk_pure ?_
      exact evsOkInt_push hevs4 ⟨hv.1.1, hv.1.2, ht⟩ hv.2
    · exact MOk_pure hevs4

theorem generatePad_ok (chordNotes : List String) (barNumber : ℕ) (bv : ℝ) :
    MOk (generatePad chordNotes barNumber bv) evsOkInt := by
  unfold generatePad
  refine MOk_bind (humanizeVelocity_ok_int (mathFloor_int _) _) (fun v hv => ?_)
  refine MOk_pure ?_
  refine evsOkInt_push evsOkInt_nil ⟨hv.1.1, hv.1.2, by positivity⟩ hv.2

theorem evsOk_append {l1 l2 : List NoteEvent} (h1 : evsOk l1) (h2 : evsOk l2) :
    evsOk (l1 ++ l2) := by
  intro e he
  rcases List.mem_append.mp he with h | h
  · exact h1 e h
  · exact h2 e h

theorem evsOkInt_append {l1 l2 : List NoteEvent} (h1 : evsOkInt l1)
    (h2 : evsOkInt l2) : evsOkInt (l1 ++ l2) := by
  intro e he
  rcases List.mem_append.mp he with h | h
  · exact h1 e h
  · exact h2 e h

theorem evsOkInt_evsOk {l : List NoteEvent} (h : evsOkInt l) : evsOk l :=
  fun e he => (h e he).1

theorem exists_int_add {x y : ℝ} (hx : ∃ n : ℤ, x = (n : ℝ))
    (hy : ∃ n : ℤ, y = (n : ℝ)) : ∃ n : ℤ, x + y = (n : ℝ) := by
  obtain ⟨a, ha⟩ := hx
  obtain ⟨b, hb⟩ := hy
  exact ⟨a + b, by rw [ha, hb]; push_cast; ring⟩

theorem exists_int_sub {x : ℝ} (hx : ∃ n : ℤ, x = (n : ℝ)) (k : ℤ) :
    ∃ n : ℤ, x - (k : ℝ) = (n : ℝ) := by
  obtain ⟨a, ha⟩ := hx
  exact ⟨a - k, by rw [ha]; push_cast; ring⟩

theorem generateChords_ok (chordNotes : List String) (barNumber : ℕ) (bv : ℝ)
    (style : String) (sp : MusicTheory.StyleParams) (sect : SongSection) :
    MOk (generateChords chordNotes barNumber bv style sp sect) evsOkInt := by
  unfold generateChords
  refine MOk_ite (fun h1 => ?_) (fun h1 => ?_)
  · -- ambient: slow arpeggio fold
    refine MOk_foldlM evsOkInt_nil (fun evs p hevs => ?_)
    refine MOk_bind (humanizeVelocity_ok_int (mathFloor_int _) _) (fun v hv => ?_)
    refine MOk_bind (humanizeTiming_nonneg _ _) (fun t ht => ?_)
    refine MOk_pure ?_
    exact evsOkInt_push hevs ⟨hv.1.1, hv.1.2, ht⟩ hv.2
  refine MOk_ite (fun h2 => ?_) (fun h2 => ?_)
  · -- electronic: fast arpeggio fold
    refine MOk_foldlM evsOkInt_nil (fun evs i hevs => ?_)
    refine MOk_bind (humanizeVelocity_ok_int (mathFloor_int _) _) (fun v hv => ?_)
    refine MOk_bind (humanizeTiming_nonneg _ _) (fun t ht => ?_)
    refine MOk_pure ?_
    exact evsOkInt_push hevs ⟨hv.1.1, hv.1.2, ht⟩ hv.2
  refine MOk_ite (fun h3 => ?_) (fun h3 => ?_)
  · -- lofi and jazz: probabilistic syncopated hits
    refine MOk_foldlM evsOkInt_nil (fun evs pos hevs => ?_)
    refine MOk_bind (MOk_true _) (fun r _ => ?_)
    refine MOk_ite (fun hr => ?_) (fun hr => MOk_pure hevs)
    refine MOk_bind (humanizeVelocity_ok_int (mathFloor_int _) _) (fun v hv => ?_)
    refine MOk_bind (humanizeTiming_nonneg _ _) (fun t ht => ?_)
    refine MOk_pure ?_
    exact evsOkInt_push hevs ⟨hv.1.1, hv.1.2, ht⟩ hv.2
  -- block chords
  refine MOk_ite (fun h4 => ?_) (fun h4 => ?_)
  · refine MOk_bind (humanizeVelocity_ok_int (mathFloor_int _) _) (fun v hv => ?_)
    refine MOk_pure ?_
    exact evsOkInt_push evsOkInt_nil ⟨hv.1.1, hv.1.2, by positivity⟩ hv.2
  · refine MOk_foldlM evsOkInt_nil (fun evs beat hevs => ?_)
    refine MOk_bind (humanizeVelocity_ok_int (mathFloor_int _) _) (fun v hv => ?_)
    refine MOk_bind (humanizeTiming_nonneg _ _) (fun t ht => ?_)
    refine MOk_pure ?_
    exact evsOkInt_push hevs ⟨hv.1.1, hv.1.2, ht⟩ hv.2

theorem generateBass_ok (bassRoot : String) (chordNotes : List String)
    (barNumber : ℕ) (bv : ℝ) (style : String)
    (progression : List (ℤ × String)) (progressionPos : ℤ) (sect : SongSection) :
    MOk (generateBass bassRoot chordNotes barNumber bv style progression
      progressionPos sect) evsOkInt := by
  have htick : (0 : ℤ) ≤ (barNumber : ℤ) * 512 := by positivity
  unfold generateBass
  refine MOk_ite (fun h1 => ?_) (fun h1 => ?_)
  · -- intro and outro: sustained root
    refine MOk_bind (humanizeVelocity_ok_int (exists_int_sub (mathFloor_int _) 10) _)
      (fun v hv => ?_)
    refine MOk_pure ?_
    exact evsOkInt_push evsOkInt_nil ⟨hv.1.1, hv.1.2, htick⟩ hv.2
  refine MOk_ite (fun h2 => ?_) (fun h2 => ?_)
  · -- jazz walking line
    refine MOk_foldlM evsOkInt_nil (fun evs p hevs => ?_)
    refine MOk_bind (humanizeVelocity_ok_int (mathFloor_int _) _) (fun v hv => ?_)
    refine MOk_bind (humanizeTiming_nonneg _ _) (fun t ht => ?_)
    refine MOk_pure ?_
    exact evsOkInt_push hevs ⟨hv.1.1, hv.1.2, ht⟩ hv.2
  refine MOk_ite (fun h3 => ?_) (fun h3 => ?_)
  · -- lofi pattern
    refine MOk_foldlM evsOkInt_nil (fun evs p hevs => ?_)
    refine MOk_bind (humanizeVelocity_ok_int (mathFloor_int _) _) (fun v hv => ?_)
    refine MOk_bind (humanizeTiming_nonneg _ _) (fun t ht => ?_)
    refine MOk_pure ?_
    exact evsOkInt_push hevs ⟨hv.1.1, hv.1.2, ht⟩ hv.2
  refine MOk_ite (fun h4 => ?_) (fun h4 => ?_)
  · -- electronic driving line
    refine MOk_foldlM evsOkInt_nil (fun evs i hevs => ?_)
    refine MOk_bind (humanizeVelocity_ok_int
      (exists_int_add (mathFloor_int _)
        ⟨if sect = .climax then 15 else 10, by split <;> norm_num⟩) _)
      (fun v hv => ?_)
    refine MOk_bind (humanizeTiming_nonneg _ _) (fun t ht => ?_)
    refine MOk_pure ?_
    exact evsOkInt_push hevs ⟨hv.1.1, hv.1.2, ht⟩ hv.2
  refine MOk_ite (fun h5 => ?_) (fun h5 => ?_)
  · -- classical alberti line
    refine MOk_foldlM evsOkInt_nil (fun evs p hevs => ?_)
    refine MOk_bind (humanizeVelocity_ok_int (exists_int_sub (mathFloor_int _) 10) _)
      (fun v hv => ?_)
    refine MOk_bind (humanizeTiming_nonneg _ _) (fun t ht => ?_)
    refine MOk_pure ?_
    exact evsOkInt_push hevs ⟨hv.1.1, hv.1.2, ht⟩ hv.2
  refine MOk_ite (fun h6 => ?_) (fun h6 => ?_)
  · -- ambient climax: root plus octave swell
    refine MOk_bind (humanizeVelocity_ok_int (exists_int_sub (mathFloor_int _) 10) _)
      (fun v1 hv1 => ?_)
    refine MOk_bind (humanizeVelocity_ok_int (exists_int_sub (mathFloor_int _) 5) _)
      (fun v2 hv2 => ?_)
    refine MOk_pure ?_
    intro e he
    simp only [List.mem_cons, List.not_mem_nil, or_false] at he
    rcases he with rfl | rfl
    · exact ⟨⟨hv1.1.1, hv1.1.2, htick⟩, hv1.2⟩
    · exact ⟨⟨hv2.1.1, hv2.1.2, by positivity⟩, hv2.2⟩
  · -- ambient default: sustained root
    refine MOk_bind (humanizeVelocity_ok_int (exists_int_sub (mathFloor_int _) 15) _)
      (fun v hv => ?_)
    refine MOk_pure ?_
    exact evsOkInt_push evsOkInt_nil ⟨hv.1.1, hv.1.2, htick⟩ hv.2

theorem melodyLoop_ok (ctx : MelodyCtx) (htick : 0 ≤ ctx.tick) :
    ∀ (l : List ℕ) (i : ℕ) (cur : Option String) (mi : ℕ)
      (evs : List NoteEvent), evsOk evs →
      MOk (melodyLoop ctx l i cur mi evs) (fun p => evsOk p.2) := by
  intro l
  induction l with
  | nil =>
    intro i cur mi evs hevs
    exact MOk_pure hevs
  | cons pos rest ih =>
    intro i cur mi evs hevs
    unfold melodyLoop
    refine MOk_bind (MOk_true _) (fun sel _ => ?_)
    refine MOk_bind (MOk_true _) (fun midi0 _ => ?_)
    refine MOk_bind (MOk_true _) (fun prevMidi _ => ?_)
    refine MOk_bind (MOk_true _) (fun midi3 _ => ?_)
    refine MOk_bind (MOk_true _) (fun timingOffset _ => ?_)
    refine MOk_bind (humanizeVelocity_bounds _ _) (fun v2 hv2 => ?_)
    refine MOk_bind (MOk_true _) (fun dur _ => ?_)
    refine MOk_bind (humanizeTiming_nonneg _ _) (fun st hst => ?_)
    refine ih _ _ _ _ ?_
    exact evsOk_push hevs ⟨hv2.1, hv2.2, hst⟩

theorem generateMelody_ok (scale chordNotes : List String) (motif : List ℤ)
    (barNumber : ℕ) (bv : ℝ) (sp : MusicTheory.StyleParams) (lastNote : Option String)
    (phrase : Phrase) (effectiveDensity : ℚ) (style : String) :
    MOk (generateMelody scale chordNotes motif barNumber bv sp lastNote phrase
      effectiveDensity style) (fun p => evsOk p.2) := by
  unfold generateMelody
  refine MOk_bind (MOk_true _) (fun positions0 _ => ?_)
  refine MOk_bind (MOk_true _) (fun phraseTargetMidi _ => ?_)
  refine melodyLoop_ok _ (by positivity) _ _ _ _ _ evsOk_nil

theorem bar_tracks_MOk (env : SegmentEnv) (bar : ℕ) (st : LoopState)
    (hst : stateTracksOk st) :
    MOk (generateSegmentBar env bar st) stateTracksOk := by
  unfold generateSegmentBar
  refine MOk_bind (MOk_true _) (fun pair _ => ?_)
  refine MOk_bind (MOk_true _) (fun h0 _ => ?_)
  refine MOk_bind (MOk_true _) (fun phrase _ => ?_)
  dsimp only
  refine MOk_bind (P := evsOkInt) ?_ (fun drumEvs hdrum => ?_)
  · exact MOk_mIte (fun hc => generateDrums_ok _ _ _ _ _ _)
      (fun hc => MOk_pure evsOkInt_nil)
  refine MOk_bind (P := evsOkInt) ?_ (fun padEvs hpad => ?_)
  · exact MOk_mIte (fun hc => generatePad_ok _ _ _)
      (fun hc => MOk_pure evsOkInt_nil)
  refine MOk_bind (P := evsOkInt) ?_ (fun chordEvs hchord => ?_)
  · exact MOk_mIte (fun hc => generateChords_ok _ _ _ _ _ _)
      (fun hc => MOk_pure evsOkInt_nil)
  refine MOk_bind (P := evsOkInt) ?_ (fun bassEvs hbass => ?_)
  · exact MOk_mIte (fun hc => generateBass_ok _ _ _ _ _ _ _ _)
      (fun hc => MOk_pure evsOkInt_nil)
  refine MOk_bind (P := fun p => evsOk p.2) ?_ (fun melodyRes hmel => ?_)
  · exact MOk_mIte (fun hc => generateMelody_ok _ _ _ _ _ _ _ _ _ _)
      (fun hc => MOk_pure evsOk_nil)
  refine MOk_bind (MOk_true _) (fun newDyn _ => ?_)
  refine MOk_pure ?_
  exact ⟨evsOk_append hst.1 hmel, evsOkInt_append hst.2.1 hchord,
    evsOkInt_append hst.2.2.1 hbass, evsOkInt_append hst.2.2.2.1 hpad,
    evsOkInt_append hst.2.2.2.2 hdrum⟩

theorem segLoop_tracks (env : SegmentEnv) (n : ℕ) (init : LoopState)
    (hinit : stateTracksOk init) : MOk (segLoop env n init) stateTracksOk := by
  unfold segLoop
  exact MOk_foldlM hinit (fun st bar hst => bar_tracks_MOk env bar st hst)

/-- C7: Amended event bounds — every note event emitted on any of the five
tracks by any run of `generateSegment` has a velocity in `[1, 127]` and an
integral start tick that is at least `0`; the velocities on the chord, bass,
pad and drum tracks are integers, but melody velocities need not be: the
claimed integrality fails on the melody track (see the counterexample), since
`generateMelody` is the only generator that does not floor its velocity before
humanizing it. -/
theorem C7_event_bounds (options : GenerationOptions)
    (ctx : Option ContinuationContext) (s : RandStream) :
    resultEventsOk (generateSegment options ctx s) := by
  cases hrun : generateSegment options ctx s with
  | error e =>
    show True
    trivial
  | ok pr =>
    obtain ⟨r, s2⟩ := pr
    show tracksOk r
    obtain ⟨motif, s1, final, s3, hm, hloop, hfin⟩ := generateSegment_ok_elim hrun
    have hinit : stateTracksOk (segInitOf ctx (segScaleOf options) motif) :=
      ⟨evsOk_nil, evsOkInt_nil, evsOkInt_nil, evsOkInt_nil, evsOkInt_nil⟩
    have hfinal : stateTracksOk final :=
      segLoop_tracks _ _ _ hinit s1 final s3 hloop
    obtain ⟨fp, fh, _, _, _, _, _, _, _, _, _, hmt, hct, hbt, hpt, hdt⟩ :=
      finishSegment_ok hfin
    exact ⟨hmt ▸ hfinal.1, hct ▸ hfinal.2.1, hbt ▸ hfinal.2.2.1,
      hpt ▸ hfinal.2.2.2.1, hdt ▸ hfinal.2.2.2.2⟩

set_option maxRecDepth 40000 in
theorem C7_event_bounds_counterexample :
    resultFirstMelodyVelocity (generateSegment
      (sampleOptions (some 1) Option.none (some 300) Option.none)
      (some trendContext) (constStream (13/100))) =
      some counterexampleVelocity ∧
    counterexampleVelocity = 135/2 ∧
    ¬ ∃ n : ℤ, (135/2 : ℝ) = (n : ℝ) := by
  refine ⟨by with_unfolding_all rfl, ?_, ?_⟩
  · have hraw : rawBaseVelocity
        { level := "medium", direction := "stable", velocityTrend := 1/20 }
        0 1 = 145/2 := by
      have hb : ((LEVEL_MAP.lookup
          ({ level := "medium", direction := "stable"
           , velocityTrend := (1/20 : ℚ) } : Dynamics).level).getD 72 : ℚ) =
          72 := rfl
      unfold rawBaseVelocity
      rw [hb]
      norm_num
    have hmod : (((SECTION_CONFIGS .outro).velocityMod : ℚ) : ℝ) = -10 := by
      norm_num [SECTION_CONFIGS]
    unfold counterexampleVelocity barBaseVelocity
    rw [getBaseVelocity_eq_raw, hraw, hmod]
    norm_num [min_def, max_def]
  · rintro ⟨n, hn⟩
    have h2 : (135 : ℝ) = 2 * (n : ℝ) := by linarith
    have h3 : (135 : ℤ) = 2 * n := by exact_mod_cast h2
    omega

theorem MTot_ite {α : Type} {c : Prop} [Decidable c] {t e : M α} {Q : α → Prop}
    (ht : c → MTot t Q) (he : ¬c → MTot e Q) : MTot (ite c t e) Q := by
  by_cases hc : c
  · rw [if_pos hc]
    exact ht hc
  · rw [if_neg hc]
    exact he hc

theorem MTot_mIte {α : Type} {c : Prop} [Decidable c] {t e : M α} {Q : α → Prop}
    (ht : c → MTot t Q) (he : ¬c → MTot e Q) : MTot (mIte c t e) Q := by
  unfold mIte
  exact MTot_ite ht he

theorem MTot_foldlM {α σ : Type} {l : List α} {f : σ → α → M σ} {P : σ → Prop}
    {init : σ} (hinit : P init) (hstep : ∀ st a, P st → MTot (f st a) P) :
    MTot (l.foldlM f init) P := by
  induction l generalizing init with
  | nil => exact MTot_pure hinit
  | cons a t ih =>
    show MTot (f init a >>= fun st => t.foldlM f st) P
    exact MTot_bind (hstep init a hinit) (fun st hst => ih hst)

theorem MTot_humanizeVelocity (v : ℝ) (a : ℚ) :
    MTot (humanizeVelocity v a) (fun _ => True) := by
  unfold humanizeVelocity
  exact MTot_bind MTot_rand (fun r _ => MTot_pure trivial)

theorem MTot_humanizeTiming (t : ℤ) (a : ℚ) :
    MTot (humanizeTiming t a) (fun _ => True) := by
  unfold humanizeTiming
  exact MTot_bind MTot_rand (fun r _ => MTot_pure trivial)

theorem jsArrIdx_isSome {α : Type} {l : List α} {i : ℤ} (h0 : 0 ≤ i)
    (hlt : i < (l.length : ℤ)) : (jsArrIdx l i).isSome := by
  unfold jsArrIdx
  rw [if_pos h0]
  rw [List.get?_eq_get (by omega)]
  rfl

theorem getD_nonneg {l : List ℤ} (h : ∀ d ∈ l, 0 ≤ d) (i : ℕ) :
    0 ≤ l.getD i 0 := by
  by_cases hi : i < l.length
  · rw [List.getD_eq_getElem l 0 hi]
    exact h _ (List.getElem_mem hi)
  · rw [List.getD_eq_default l 0 (by omega)]

theorem floor_mul_bounds {r : ℚ} (h0 : 0 ≤ r) (h1 : r < 1) {L : ℕ}
    (hL : 0 < L) : 0 ≤ ⌊r * (L : ℚ)⌋ ∧ ⌊r * (L : ℚ)⌋ < (L : ℤ) := by
  constructor
  · exact Int.floor_nonneg.mpr (by positivity)
  · rw [Int.floor_lt]
    push_cast
    nlinarith [show (0 : ℚ) < (L : ℚ) by exact_mod_cast hL]

theorem MTot_generateDrums (barNumber : ℕ) (style : String) (bv : ℝ)
    (dyn : Dynamics) (intensity : String) (addFill : Bool) :
    MTot (generateDrums barNumber style bv dyn intensity addFill)
      (fun _ => True) := by
  unfold generateDrums
  refine MTot_foldlM trivial (fun evs i _ => ?_)
  refine MTot_ite (fun hfill => ?_) (fun hfill => ?_)
  · refine MTot_bind (MTot_humanizeVelocity _ _) (fun v _ => ?_)
    refine MTot_bind (MTot_humanizeTiming _ _) (fun t _ => ?_)
    refine MTot_ite (fun htom => ?_) (fun htom => MTot_pure trivial)
    refine MTot_bind (MTot_humanizeVelocity _ _) (fun v2 _ => ?_)
    exact MTot_bind (MTot_humanizeTiming _ _) (fun t2 _ => MTot_pure trivial)
  · refine MTot_bind (P := fun _ => True) ?_ (fun evs1 _ => ?_)
    · refine MTot_mIte (fun hc => ?_) (fun hc => MTot_pure trivial)
      refine MTot_bind (MTot_humanizeVelocity _ _) (fun v _ => ?_)
      exact MTot_bind (MTot_humanizeTiming _ _) (fun t _ => MTot_pure trivial)
    refine MTot_bind (P := fun _ => True) ?_ (fun evs2 _ => ?_)
    · refine MTot_mIte (fun hc => ?_) (fun hc => MTot_pure trivial)
      refine MTot_bind MTot_rand (fun r _ => ?_)
      refine MTot_ite (fun hr => ?_) (fun hr => MTot_pure trivial)
      refine MTot_bind (MTot_humanizeVelocity _ _) (fun v _ => ?_)
      exact MTot_bind (MTot_humanizeTiming _ _) (fun t _ => MTot_pure trivial)
    refine MTot_bind (P := fun _ => True) ?_ (fun evs3 _ => ?_)
    · refine MTot_mIte (fun hc => ?_) (fun hc => MTot_pure trivial)
      refine MTot_bind MTot_rand (fun r _ => ?_)
      refine MTot_ite (fun hr => ?_) (fun hr => MTot_pure trivial)
      refine MTot_bind (MTot_humanizeVelocity _ _) (fun v _ => ?_)
      exact MTot_bind (MTot_humanizeTiming _ _) (fun t _ => MTot_pure trivial)
    refine MTot_bind (P := fun _ => True) ?_ (fun evs4 _ => ?_)
    · refine MTot_mIte (fun hc => ?_) (fun hc => MTot_pure trivial)
      refine MTot_bind MTot_rand (fun r _ => ?_)
      refine MTot_ite (fun hr => ?_) (fun hr => MTot_pure trivial)
      refine MTot_bind (MTot_humanizeVelocity _ _) (fun v _ => ?_)
      exact MTot_bind (MTot_humanizeTiming _ _) (fun t _ => MTot_pure trivial)
    split
    · refine MTot_ite (fun hrd => ?_) (fun hrd => MTot_pure trivial)
      refine MTot_bind MTot_rand (fun r _ => ?_)
      refine MTot_ite (fun hr => ?_) (fun hr => MTot_pure trivial)
      refine MTot_bind (MTot_humanizeVelocity _ _) (fun v _ => ?_)
      exact MTot_bind (MTot_humanizeTiming _ _) (fun t _ => MTot_pure trivial)
    · exact MTot_pure trivial

theorem MTot_generatePad (chordNotes : List String) (barNumber : ℕ) (bv : ℝ) :
    MTot (generatePad chordNotes barNumber bv) (fun _ => True) := by
  unfold generatePad
  exact MTot_bind (MTot_humanizeVelocity _ _) (fun v _ => MTot_pure trivial)

theorem MTot_generateChords (chordNotes : List String) (barNumber : ℕ) (bv : ℝ)
    (style : String) (sp : MusicTheory.StyleParams) (sect : SongSection) :
    MTot (generateChords chordNotes barNumber bv style sp sect)
      (fun _ => True) := by
  unfold generateChords
  refine MTot_ite (fun h1 => ?_) (fun h1 => ?_)
  · refine MTot_foldlM trivial (fun evs p _ => ?_)
    refine MTot_bind (MTot_humanizeVelocity _ _) (fun v _ => ?_)
    exact MTot_bind (MTot_humanizeTiming _ _) (fun t _ => MTot_pure trivial)
  refine MTot_ite (fun h2 => ?_) (fun h2 => ?_)
  · refine MTot_foldlM trivial (fun evs i _ => ?_)
    refine MTot_bind (MTot_humanizeVelocity _ _) (fun v _ => ?_)
    exact MTot_bind (MTot_humanizeTiming _ _) (fun t _ => MTot_pure trivial)
  refine MTot_ite (fun h3 => ?_) (fun h3 => ?_)
  · refine MTot_foldlM trivial (fun evs pos _ => ?_)
    refine MTot_bind MTot_rand (fun r _ => ?_)
    refine MTot_ite (fun hr => ?_) (fun hr => MTot_pure trivial)
    refine MTot_bind (MTot_humanizeVelocity _ _) (fun v _ => ?_)
    exact MTot_bind (MTot_humanizeTiming _ _) (fun t _ => MTot_pure trivial)
  refine MTot_ite (fun h4 => ?_) (fun h4 => ?_)
  · exact MTot_bind (MTot_humanizeVelocity _ _) (fun v _ => MTot_pure trivial)
  · refine MTot_foldlM trivial (fun evs beat _ => ?_)
    refine MTot_bind (MTot_humanizeVelocity _ _) (fun v _ => ?_)
    exact MTot_bind (MTot_humanizeTiming _ _) (fun t _ => MTot_pure trivial)

theorem MTot_generateBass (bassRoot : String) (chordNotes : List String)
    (barNumber : ℕ) (bv : ℝ) (style : String)
    (progression : List (ℤ × String)) (progressionPos : ℤ)
    (sect : SongSection) :
    MTot (generateBass bassRoot chordNotes barNumber bv style progression
      progressionPos sect) (fun _ => True) := by
  unfold generateBass
  refine MTot_ite (fun h1 => ?_) (fun h1 => ?_)
  · exact MTot_bind (MTot_humanizeVelocity _ _) (fun v _ => MTot_pure trivial)
  refine MTot_ite (fun h2 => ?_) (fun h2 => ?_)
  · refine MTot_foldlM trivial (fun evs p _ => ?_)
    refine MTot_bind (MTot_humanizeVelocity _ _) (fun v _ => ?_)
    exact MTot_bind (MTot_humanizeTiming _ _) (fun t _ => MTot_pure trivial)
  refine MTot_ite (fun h3 => ?_) (fun h3 => ?_)
  · refine MTot_foldlM trivial (fun evs p _ => ?_)
    refine MTot_bind (MTot_humanizeVelocity _ _) (fun v _ => ?_)
    exact MTot_bind (MTot_humanizeTiming _ _) (fun t _ => MTot_pure trivial)
  refine MTot_ite (fun h4 => ?_) (fun h4 => ?_)
  · refine MTot_foldlM trivial (fun evs i _ => ?_)
    refine MTot_bind (MTot_humanizeVelocity _ _) (fun v _ => ?_)
    exact MTot_bind (MTot_humanizeTiming _ _) (fun t _ => MTot_pure trivial)
  refine MTot_ite (fun h5 => ?_) (fun h5 => ?_)
  · refine MTot_foldlM trivial (fun evs p _ => ?_)
    refine MTot_bind (MTot_humanizeVelocity _ _) (fun v _ => ?_)
    exact MTot_bind (MTot_humanizeTiming _ _) (fun t _ => MTot_pure trivial)
  refine MTot_ite (fun h6 => ?_) (fun h6 => ?_)
  · refine MTot_bind (MTot_humanizeVelocity _ _) (fun v1 _ => ?_)
    exact MTot_bind (MTot_humanizeVelocity _ _) (fun v2 _ => MTot_pure trivial)
  · exact MTot_bind (MTot_humanizeVelocity _ _) (fun v _ => MTot_pure trivial)

theorem MTot_getPhraseType (barNumber : ℕ) :
    MTot (getPhraseType barNumber)
      (fun p => 0 ≤ p.targetResolution) := by
  unfold getPhraseType
  refine MTot_ite (fun h => ?_) (fun h => ?_)
  · refine MTot_bind MTot_rand (fun r _ => ?_)
    refine MTot_pure ?_
    split <;> norm_num
  · refine MTot_bind MTot_rand (fun r _ => ?_)
    refine MTot_pure ?_
    split <;> norm_num

theorem MTot_evolveDynamics (dyn : Dynamics) (currentBar : ℕ) (totalBars : ℤ) :
    MTot (evolveDynamics dyn currentBar totalBars) (fun _ => True) := by
  unfold evolveDynamics
  refine MTot_bind (P := fun _ => True) ?_ (fun upd _ => MTot_pure trivial)
  refine MTot_mIte (fun h1 => MTot_pure trivial) (fun h1 => ?_)
  refine MTot_mIte (fun h2 => ?_) (fun h2 => ?_)
  · exact MTot_bind MTot_rand (fun r _ => MTot_pure trivial)
  · exact MTot_mIte (fun h3 => MTot_pure trivial) (fun h3 => MTot_pure trivial)

theorem MTot_melodyPositions (effectiveDensity phraseDensityMod : ℚ)
    (l : List ℕ) :
    MTot (melodyPositions effectiveDensity phraseDensityMod l)
      (fun _ => True) := by
  induction l with
  | nil => exact MTot_pure trivial
  | cons pos rest ih =>
    unfold melodyPositions
    refine MTot_bind MTot_rand (fun r _ => ?_)
    exact MTot_bind ih (fun tail _ => MTot_pure trivial)

theorem MTot_noteToMidiJs {o : Option String} (h : o.isSome) :
    MTot (noteToMidiJs o) (fun _ => True) := by
  cases o with
  | some s => exact MTot_pure trivial
  | none => simp at h

theorem MTot_generateMotifSteps (scaleLength : ℕ) :
    ∀ (n : ℕ) (current : ℤ) (acc : List ℤ), 0 ≤ current →
      MTot (generateMotifSteps scaleLength n current acc)
        (fun l => ∃ tail, l = acc ++ tail ∧ (∀ d ∈ tail, 0 ≤ d) ∧
          (0 < n → tail.head? = some current)) := by
  intro n
  induction n with
  | zero =>
    intro current acc hcur
    refine MTot_pure ⟨[], by simp, by simp, fun h => absurd h (by omega)⟩
  | succ n ih =>
    intro current acc hcur
    unfold generateMotifSteps
    refine MTot_bind MTot_rand (fun r _ => ?_)
    refine MTot_ite (fun hr => ?_) (fun hr => ?_)
    · refine MTot_bind MTot_rand (fun r2 _ => ?_)
      refine MTot_mono (ih _ _ (le_max_left 0 _)) ?_
      rintro l ⟨tail, hl, htail, hhead⟩
      refine ⟨current :: tail, by simpa using hl, ?_, fun _ => rfl⟩
      intro d hd
      rcases List.mem_cons.mp hd with rfl | hd2
      · exact hcur
      · exact htail d hd2
    · refine MTot_bind MTot_rand (fun r2 _ => ?_)
      refine MTot_mono (ih _ _ (le_max_left 0 _)) ?_
      rintro l ⟨tail, hl, htail, hhead⟩
      refine ⟨current :: tail, by simpa using hl, ?_, fun _ => rfl⟩
      intro d hd
      rcases List.mem_cons.mp hd with rfl | hd2
      · exact hcur
      · exact htail d hd2

theorem MTot_generateMotif (scaleLength : ℕ) :
    MTot (generateMotif scaleLength)
      (fun l => (∀ d ∈ l, 0 ≤ d) ∧
        ∃ h, l.head? = some h ∧ 2 ≤ h ∧ h ≤ 4) := by
  unfold generateMotif
  refine MTot_bind MTot_rand (fun r hr => ?_)
  refine MTot_bind MTot_rand (fun r2 hr2 => ?_)
  have hlen : 0 < (4 + ⌊r * 4⌋).toNat := by
    have : 0 ≤ ⌊r * 4⌋ := Int.floor_nonneg.mpr (by nlinarith [hr.1])
    omega
  have hcur0 : 0 ≤ ⌊r2 * 3⌋ + 2 := by
    have : 0 ≤ ⌊r2 * 3⌋ := Int.floor_nonneg.mpr (by nlinarith [hr2.1])
    omega
  have hcur4 : ⌊r2 * 3⌋ + 2 ≤ 4 := by
    have : ⌊r2 * 3⌋ < 3 := by
      rw [Int.floor_lt]
      push_cast
      nlinarith [hr2.2]
    omega
  have hcur2 : 2 ≤ ⌊r2 * 3⌋ + 2 := by
    have : 0 ≤ ⌊r2 * 3⌋ := Int.floor_nonneg.mpr (by nlinarith [hr2.1])
    omega
  refine MTot_mono (MTot_generateMotifSteps scaleLength _ _ [] hcur0) ?_
  rintro l ⟨tail, hl, htail, hhead⟩
  rw [hl]
  refine ⟨by simpa using htail, ⌊r2 * 3⌋ + 2, ?_, hcur2, hcur4⟩
  simpa using hhead hlen

theorem foundDeg_nonneg (o : Option ℕ) :
    0 ≤ if (match o with | some n => (n : ℤ) | none => -1) = -1 then 0
        else (match o with | some n => (n : ℤ) | none => -1) := by
  cases o with
  | some n =>
    dsimp only
    split <;> omega
  | none =>
    dsimp only
    norm_num

theorem MTot_melodyTargetFallback (ctx : MelodyCtx) (rest : List ℕ)
    (cur : Option String) (mi : ℕ) (hcur : cur.isSome)
    (hchord : 0 < ctx.chordNotes.length) :
    MTot (melodyTargetFallback ctx rest cur mi) (fun sel => 0 ≤ sel.1) := by
  unfold melodyTargetFallback
  refine MTot_bind (P := fun _ => True) (MTot_noteToMidiJs hcur)
    (fun currentMidi _ => ?_)
  refine MTot_ite (fun hb => ?_) (fun hb => ?_)
  · refine MTot_bind (P := fun x => jsArrIdx ctx.chordNotes 0 = some x)
      (MTot_fromJs_isSome (jsArrIdx_isSome (by omega) (by exact_mod_cast hchord)))
      (fun nextChordTone _ => ?_)
    refine MTot_pure ?_
    exact foundDeg_nonneg _
  · refine MTot_bind MTot_rand (fun r1 _ => ?_)
    refine MTot_bind MTot_rand (fun r2 _ => ?_)
    refine MTot_pure ?_
    exact foundDeg_nonneg _

theorem matchIdx_neg_or (o : Option ℕ) :
    (match o with | some n => (n : ℤ) | none => -1) = -1 ∨
    0 ≤ (match o with | some n => (n : ℤ) | none => -1) := by
  cases o with
  | some n =>
    dsimp only
    right
    omega
  | none =>
    dsimp only
    left
    rfl

theorem degIdx_fst_nonneg {found : ℤ} (hfound : found = -1 ∨ 0 ≤ found)
    {x : ℤ × ℕ} (hx : 0 ≤ x.1) (mi : ℕ) :
    0 ≤ (if found = -1 then x else (found, mi)).1 := by
  split
  · exact hx
  · rcases hfound with h | h
    · exact absurd h (by assumption)
    · exact h

theorem MTot_melodyLoop (ctx : MelodyCtx)
    (hscale : 0 < ctx.scale.length) (hchord : 0 < ctx.chordNotes.length)
    (hmotif : ∀ d ∈ ctx.motif, 0 ≤ d)
    (htarget : 0 ≤ ctx.phraseTargetScaleDegree) :
    ∀ (l : List ℕ) (i : ℕ) (cur : Option String) (mi : ℕ)
      (evs : List NoteEvent), cur.isSome →
      MTot (melodyLoop ctx l i cur mi evs) (fun p => p.1.isSome) := by
  intro l
  induction l with
  | nil =>
    intro i cur mi evs hcur
    exact MTot_pure hcur
  | cons pos rest ih =>
    intro i cur mi evs hcur
    unfold melodyLoop
    refine MTot_bind (P := fun sel => 0 ≤ sel.1) ?_ (fun sel hsel => ?_)
    · refine MTot_mIte (fun hl => MTot_pure htarget) (fun hl => ?_)
      refine MTot_mIte (fun hs => ?_) (fun hs => ?_)
      · -- strong beat: random chord tone
        refine MTot_bind MTot_rand (fun r hr => ?_)
        have hidx := floor_mul_bounds hr.1 hr.2 hchord
        refine MTot_bind (P := fun x => _ = some x)
          (MTot_fromJs_isSome (jsArrIdx_isSome hidx.1 hidx.2))
          (fun chordTone _ => ?_)
        have hX : 0 ≤ (if mi < ctx.motif.length then
            (ctx.motif.getD mi 0, mi + 1) else ((0 : ℤ), mi)).1 := by
          split
          · exact getD_nonneg hmotif mi
          · norm_num
        have hdeg := degIdx_fst_nonneg
          (matchIdx_neg_or (ctx.scale.findIdx? (fun s =>
            stripTrailingDigits s = stripTrailingDigits chordTone))) hX mi
        refine MTot_bind (P := fun x => _ = some x)
          (MTot_fromJs_isSome (jsArrIdx_isSome (jsMod_bounds hdeg hscale).1
            (jsMod_bounds hdeg hscale).2)) (fun tm _ => ?_)
        exact MTot_pure hdeg
      · refine MTot_mIte (fun hm => ?_) (fun hm => ?_)
        · -- motif continuation
          refine MTot_bind MTot_rand (fun r _ => ?_)
          refine MTot_ite (fun hr2 => ?_) (fun hr2 => ?_)
          · have hd : 0 ≤ ctx.motif.getD mi 0 := getD_nonneg hmotif mi
            refine MTot_bind (P := fun x => _ = some x)
              (MTot_fromJs_isSome (jsArrIdx_isSome (jsMod_bounds hd hscale).1
                (jsMod_bounds hd hscale).2)) (fun tm _ => ?_)
            exact MTot_pure hd
          · exact MTot_melodyTargetFallback ctx rest cur mi hcur hchord
        · exact MTot_melodyTargetFallback ctx rest cur mi hcur hchord
    · refine MTot_bind (P := fun _ => True) ?_ (fun midi0 _ => ?_)
      · refine MTot_mIte (fun hne => MTot_pure trivial) (fun hne => ?_)
        exact MTot_noteToMidiJs
          (jsArrIdx_isSome (jsMod_bounds hsel hscale).1
            (jsMod_bounds hsel hscale).2)
      refine MTot_bind (P := fun _ => True) (MTot_noteToMidiJs hcur)
        (fun prevMidi _ => ?_)
      refine MTot_bind (P := fun _ => True) ?_ (fun midi3 _ => ?_)
      · refine MTot_mIte (fun h => ?_) (fun h => MTot_pure trivial)
        refine MTot_bind MTot_rand (fun r _ => ?_)
        refine MTot_ite (fun hr => ?_) (fun hr => MTot_pure trivial)
        exact MTot_bind MTot_rand (fun r2 _ => MTot_pure trivial)
      refine MTot_bind (P := fun _ => True) ?_ (fun timingOffset _ => ?_)
      · refine MTot_mIte (fun h => MTot_pure trivial) (fun h => ?_)
        refine MTot_mIte (fun h2 => ?_) (fun h2 => MTot_pure trivial)
        exact MTot_bind MTot_rand (fun r _ => MTot_pure trivial)
      refine MTot_bind (P := fun _ => True) (MTot_humanizeVelocity _ _)
        (fun v2 _ => ?_)
      refine MTot_bind (P := fun _ => True) ?_ (fun dur _ => ?_)
      · refine MTot_mIte (fun h => MTot_pure trivial) (fun h => ?_)
        refine MTot_mIte (fun h2 => ?_) (fun h2 => ?_)
        · exact MTot_bind MTot_rand (fun r _ => MTot_pure trivial)
        · exact MTot_bind MTot_rand (fun r _ => MTot_pure trivial)
      refine MTot_bind (P := fun _ => True) (MTot_humanizeTiming _ _)
        (fun st _ => ?_)
      exact ih _ _ _ _ rfl

theorem MTot_generateMelody (scale chordNotes : List String) (motif : List ℤ)
    (barNumber : ℕ) (bv : ℝ) (sp : MusicTheory.StyleParams)
    (lastNote : Option String) (phrase : Phrase) (effectiveDensity : ℚ)
    (style : String) (hscale : 0 < scale.length)
    (hchord : 0 < chordNotes.length) (hmotif : ∀ d ∈ motif, 0 ≤ d)
    (hlast : lastNote.isSome) (htarget : 0 ≤ phrase.targetResolution) :
    MTot (generateMelody scale chordNotes motif barNumber bv sp lastNote
      phrase effectiveDensity style) (fun p => p.1.isSome) := by
  unfold generateMelody
  refine MTot_bind (P := fun _ => True) (MTot_melodyPositions _ _ _)
    (fun positions0 _ => ?_)
  refine MTot_bind (P := fun _ => True) (MTot_noteToMidiJs
    (jsArrIdx_isSome (jsMod_bounds htarget hscale).1
      (jsMod_bounds htarget hscale).2)) (fun ptm _ => ?_)
  exact MTot_melodyLoop _ hscale hchord hmotif htarget _ _ _ _ _ hlast

theorem varyMotif_nonneg {motif : List ℤ} (hmot : ∀ d ∈ motif, 0 ≤ d)
    {scaleLength : ℕ} (hlen : 0 < scaleLength) (variation : ℕ) :
    ∀ d ∈ varyMotif motif variation scaleLength, 0 ≤ d := by
  intro d hd
  unfold varyMotif at hd
  split at hd
  · exact hmot d hd
  · obtain ⟨n, hn, rfl⟩ := List.mem_map.mp hd
    refine le_min (by omega) ?_
    have := hmot n hn
    omega
  · exact hmot d (List.mem_reverse.mp hd)
  · obtain ⟨n, hn, rfl⟩ := List.mem_map.mp hd
    exact le_max_left 0 _
  · exact hmot d hd

theorem getChord_length_pos (root ct : String) (oct : ℤ) :
    0 < (MusicTheory.getChord root ct oct).length := by
  have h : (MusicTheory.getChord root ct oct).length =
      ((MusicTheory.CHORDS.lookup ct).getD MusicTheory.CHORDS_major).length := by
    unfold MusicTheory.getChord
    exact List.length_map _ _
  rw [h]
  unfold MusicTheory.CHORDS MusicTheory.CHORDS_major
  simp only [List.lookup]
  repeat' split
  all_goals simp_all

theorem getChordFromDegree_length_pos (root st : String) (deg : ℤ)
    (ct : String) (oct : ℤ) :
    0 < (MusicTheory.getChordFromDegree root st deg ct oct).length := by
  unfold MusicTheory.getChordFromDegree
  exact getChord_length_pos _ _ _

theorem head_isSome_of_length_pos {α : Type} {l : List α} (h : 0 < l.length) :
    l.head?.isSome := by
  cases l with
  | nil => simp at h
  | cons a t => rfl

theorem segScale_length_ge (options : GenerationOptions) :
    5 ≤ (segScaleOf options).length := by
  have h : (segScaleOf options).length =
      ((SCALE_PATTERNS.lookup (options.mode.getD "major")).getD
        SCALE_PATTERNS_major).length := by
    unfold segScaleOf getScale
    exact List.length_map _ _
  rw [h]
  unfold SCALE_PATTERNS SCALE_PATTERNS_major
  simp only [List.lookup]
  repeat' split
  all_goals simp_all

theorem bar_MTot (env : SegmentEnv) (bar : ℕ) (st : LoopState)
    (hlen : 0 < env.progression.length) (hscale : 0 < env.scale.length)
    (hmotif : ∀ d ∈ env.motif, 0 ≤ d)
    (hpos : 0 ≤ st.progressionPos) (hlast : st.lastMelodyNote.isSome) :
    MTot (generateSegmentBar env bar st)
      (fun st2 => 0 ≤ st2.progressionPos ∧ st2.lastMelodyNote.isSome) := by
  unfold generateSegmentBar
  refine MTot_bind (P := fun x => _ = some x)
    (MTot_fromJs_isSome (jsArrIdx_isSome (jsMod_bounds hpos hlen).1
      (jsMod_bounds hpos hlen).2)) (fun pair _ => ?_)
  refine MTot_bind (P := fun x => _ = some x) (MTot_fromJs_isSome
    (head_isSome_of_length_pos (getChordFromDegree_length_pos _ _ _ _ _)))
    (fun h0 _ => ?_)
  refine MTot_bind (P := fun p => 0 ≤ p.targetResolution)
    (MTot_getPhraseType bar) (fun phrase hphrase => ?_)
  refine MTot_bind (P := fun _ => True) ?_ (fun drumEvs _ => ?_)
  · exact MTot_mIte (fun hc => MTot_generateDrums _ _ _ _ _ _)
      (fun hc => MTot_pure trivial)
  refine MTot_bind (P := fun _ => True) ?_ (fun padEvs _ => ?_)
  · exact MTot_mIte (fun hc => MTot_generatePad _ _ _)
      (fun hc => MTot_pure trivial)
  refine MTot_bind (P := fun _ => True) ?_ (fun chordEvs _ => ?_)
  · exact MTot_mIte (fun hc => MTot_generateChords _ _ _ _ _ _)
      (fun hc => MTot_pure trivial)
  refine MTot_bind (P := fun _ => True) ?_ (fun bassEvs _ => ?_)
  · exact MTot_mIte (fun hc => MTot_generateBass _ _ _ _ _ _ _ _)
      (fun hc => MTot_pure trivial)
  refine MTot_bind (P := fun p => p.1.isSome) ?_ (fun melodyRes hmel => ?_)
  · refine MTot_mIte (fun hc => ?_) (fun hc => MTot_pure hlast)
    exact MTot_generateMelody _ _ _ _ _ _ _ _ _ _ hscale
      (getChordFromDegree_length_pos _ _ _ _ _)
      (varyMotif_nonneg hmotif hscale _) hlast hphrase
  refine MTot_bind (P := fun _ => True) (MTot_evolveDynamics _ _ _)
    (fun newDyn _ => ?_)
  refine MTot_pure ⟨?_, hmel⟩
  dsimp only
  split
  · exact Int.tmod_nonneg _ (by omega)
  · exact hpos

theorem segLoop_MTot (env : SegmentEnv)
    (hlen : 0 < env.progression.length) (hscale : 0 < env.scale.length)
    (hmotif : ∀ d ∈ env.motif, 0 ≤ d) (n : ℕ) (init : LoopState)
    (hpos : 0 ≤ init.progressionPos) (hlast : init.lastMelodyNote.isSome) :
    MTot (segLoop env n init)
      (fun st => 0 ≤ st.progressionPos ∧ st.lastMelodyNote.isSome) := by
  unfold segLoop
  exact MTot_foldlM ⟨hpos, hlast⟩
    (fun st bar hst => bar_MTot env bar st hlen hscale hmotif hst.1 hst.2)

theorem segInitOf_lastMelody_isSome (ctx : Option ContinuationContext)
    (scale : List String) (motif : List ℤ)
    (hsome : (match motif.head? with
      | some d => jsArrIdx scale d
      | none => (Option.none : Option String)).isSome) :
    ((segInitOf ctx scale motif).lastMelodyNote).isSome := by
  unfold segInitOf
  dsimp only
  split
  · split
    · exact hsome
    · rfl
  · exact hsome

theorem motifStep_MTot (options : GenerationOptions)
    (ctx : Option ContinuationContext)
    (hctx : ∀ c ∈ ctx, ∀ l ∈ c.motif, (∀ d ∈ l, 0 ≤ d) ∧
      ((segInitOf (some c) (segScaleOf options) l).lastMelodyNote).isSome) :
    MTot (motifStep ctx (segScaleOf options))
      (fun motif => (∀ d ∈ motif, 0 ≤ d) ∧
        ((segInitOf ctx (segScaleOf options) motif).lastMelodyNote).isSome) := by
  unfold motifStep
  cases hm : ctx.bind (fun c => c.motif) with
  | some l =>
    cases ctx with
    | none => simp at hm
    | some c =>
      have hcm : c.motif = some l := by simpa using hm
      have h := hctx c rfl l (by rw [hcm]; rfl)
      exact MTot_pure ⟨h.1, h.2⟩
  | none =>
    have hscale5 := segScale_length_ge options
    refine MTot_mono (MTot_generateMotif (segScaleOf options).length) ?_
    rintro l ⟨hnn, h, hh, h2, h4⟩
    refine ⟨hnn, ?_⟩
    cases ctx with
    | none =>
      refine segInitOf_lastMelody_isSome _ _ _ ?_
      rw [hh]
      exact jsArrIdx_isSome (by omega) (by push_cast; omega)
    | some c =>
      refine segInitOf_lastMelody_isSome _ _ _ ?_
      rw [hh]
      exact jsArrIdx_isSome (by omega) (by push_cast; omega)

theorem finishSegment_MTot (env : SegmentEnv) (final : LoopState)
    (hlen : 0 < env.progression.length) (hpos : 0 ≤ final.progressionPos) :
    MTot (finishSegment env final) (fun _ => True) := by
  unfold finishSegment
  refine MTot_bind (P := fun x => _ = some x)
    (MTot_fromJs_isSome (jsArrIdx_isSome (jsMod_bounds (by omega) hlen).1
      (jsMod_bounds (by omega) hlen).2)) (fun fc _ => ?_)
  refine MTot_bind (P := fun x => _ = some x) (MTot_fromJs_isSome
    (head_isSome_of_length_pos (getChordFromDegree_length_pos _ _ _ _ _)))
    (fun fh _ => ?_)
  exact MTot_pure trivial

/-- C2: Amended totality — over streams delivering draws in `[0, 1)` (the
contract of `Math.random()`), `generateSegment` returns a result without
throwing for EVERY option record (any style, mode and key strings, including
unrecognized ones, which fall back to their defaults) and for every
continuation context whose progression position is nonnegative and whose
carried motif, when present, has nonnegative entries and leaves a usable last
melody note.  The unconditional claim is refuted by the counterexample below:
a type-correct context carrying an empty motif and no last melody note makes
the melody generator dereference `undefined`, a thrown `TypeError`. -/
theorem C2_totality (options : GenerationOptions)
    (ctx : Option ContinuationContext) (s : RandStream) (hs : goodStream s)
    (hctx : ∀ c ∈ ctx, 0 ≤ c.progressionPosition ∧
      ∀ l ∈ c.motif, (∀ d ∈ l, 0 ≤ d) ∧
        ((segInitOf (some c) (segScaleOf options) l).lastMelodyNote).isSome) :
    resultIsOk (generateSegment options ctx s) = true := by
  have hscale5 := segScale_length_ge options
  have htot : MTot (generateSegment options ctx) (fun _ => True) := by
    rw [generateSegment_eq]
    refine MTot_bind (P := fun motif => (∀ d ∈ motif, 0 ≤ d) ∧
      ((segInitOf ctx (segScaleOf options) motif).lastMelodyNote).isSome)
      (motifStep_MTot options ctx (fun c hc => (hctx c hc).2))
      (fun motif hmot => ?_)
    have hlen : 0 < (segEnvOf options motif).progression.length :=
      getProgression_length_pos _
    have hscale : 0 < (segEnvOf options motif).scale.length := by
      show 0 < (segScaleOf options).length
      omega
    have hpos0 : 0 ≤ (segInitOf ctx (segScaleOf options) motif).progressionPos := by
      cases ctx with
      | none => exact le_refl 0
      | some c =>
        show 0 ≤ ((some c).map (fun c => c.progressionPosition)).getD 0
        simpa using (hctx c rfl).1
    refine MTot_bind
      (P := fun st => 0 ≤ st.progressionPos ∧ st.lastMelodyNote.isSome)
      (segLoop_MTot _ hlen hscale hmot.1 _ _ hpos0 hmot.2) (fun final hfin => ?_)
    exact finishSegment_MTot _ _ hlen hfin.1
  obtain ⟨r, s2, hrun⟩ := MTot_MOk htot s hs
  rw [show generateSegment options ctx s = Except.ok (r, s2) from hrun]
  rfl

set_option maxRecDepth 40000 in
theorem C2_totality_witness :
    resultIsOk (generateSegment
      (sampleOptions (some 1) Option.none Option.none Option.none)
      (some (sampleContext 1 (some [2, 3]))) (constStream (13/100))) = true :=
  C2_totality _ _ _ (goodStream_const (by norm_num) (by norm_num))
    (by
      intro c hc
      have hc2 : c = sampleContext 1 (some [2, 3]) := by
        cases hc
        rfl
      subst hc2
      refine ⟨by norm_num [sampleContext], ?_⟩
      intro l hl
      have hl2 : l = [2, 3] := by
        have := hl
        simp [sampleContext] at this
        exact this.symm
      subst hl2
      constructor
      · decide
      · with_unfolding_all decide)

set_option maxRecDepth 40000 in
theorem C2_totality_counterexample :
    resultIsOk (generateSegment
      (sampleOptions (some 1) Option.none (some 300) Option.none)
      (some degenerateContext) (constStream (13/100))) = false := by
  with_unfolding_all decide

end Generator

end InfiniteRadio
